import Mathlib

/-!
Verification development for the table library in src/src/table-library.js
(the TableLibrary class).  The data transformation pipeline of the class is
embedded shallowly: cells are a tagged type mirroring the JavaScript values
the code dispatches on, and the stateful fields of the class
(sortState, processedData, processedHeadings, filteredData, displayData)
become an explicit state record.  DOM access is modelled by its data effect:
the rendered text of a cell is the text content of the markup string
renderCell produces (computed by stripTags below), and the filter operation
reads that text, exactly as attachEventListeners.filterTable does.
External library behaviour (Intl.DateTimeFormat, Date.prototype.toString,
localeCompare, the shortest round-trip decimal form of Number toString) is
modelled by concrete executable functions; no claim below depends on the
exact output of those collaborators, only on which code path produces it.
JavaScript numbers are modelled as exact rationals plus a separate NaN
value; claims about them do not involve binary64 rounding.
-/

/-- Model of a JavaScript cell value as dispatched on by renderCell and
getCellTextContent: null or undefined; booleans; finite numbers (as an exact
rational); NaN (also typeof number in JS); strings; Date objects carrying
their instant in epoch milliseconds, or none for an invalid instant (NaN
time value); arrays; the duck-typed rich objects with field type equal to
the string url or the string button; and other plain objects as an ordered
field list.  An obj cell stands for a generic object, so by model convention
its fields do not contain a type field equal to url or button (those values
are the url and button constructors). -/
inductive Cell where
  | null
  | bool (b : Bool)
  | num (q : ℚ)
  | nan
  | str (s : String)
  | date (t : Option Int)
  | arr (elems : List Cell)
  | url (value : String) (placeholder : Option String)
  | button (fname : String) (placeholder : Option String)
      (checkbox : Bool) (checkboxValue : Bool) (checkboxLabel : Option String)
  | obj (fields : List (String × Cell))

/-- A table row: one cell per heading. -/
abbrev Row := List Cell

/-- JavaScript truthiness fallback for optional string properties, as in
the expressions cell.placeholder or-else a default: undefined and the empty
string are falsy, so both select the default. -/
def jsOrStr (s : Option String) (dflt : String) : String :=
  match s with
  | none => dflt
  | some v => if v = "" then dflt else v

/-- True for the cells whose JS typeof is the string object (excluding
null, which the callers test first): arrays, Date objects and all object
shapes. -/
def jsTypeofObject : Cell → Bool
  | .arr _ => true
  | .date _ => true
  | .url _ _ => true
  | .button _ _ _ _ _ => true
  | .obj _ => true
  | .null => true
  | _ => false

/-- The test cell === null || cell === undefined at the top of renderCell
and getCellTextContent. -/
def isNullCell : Cell → Bool
  | .null => true
  | _ => false

/-- The JS test typeof v === "number": true for finite numbers and NaN. -/
def isJsNumberCell : Cell → Bool
  | .num _ => true
  | .nan => true
  | _ => false

/- ## String utilities (kernel-computable replacements for the JS string
methods the source uses) -/

/-- Join a list of strings with a separator, as Array.prototype.join. -/
def strJoin (sep : String) : List String → String
  | [] => ""
  | [x] => x
  | x :: xs => x ++ sep ++ strJoin sep xs

/-- One decimal digit as a character. -/
def digitChar : Nat → Char
  | 0 => '0'
  | 1 => '1'
  | 2 => '2'
  | 3 => '3'
  | 4 => '4'
  | 5 => '5'
  | 6 => '6'
  | 7 => '7'
  | 8 => '8'
  | _ => '9'

/-- Decimal digits of a natural number, accumulator style, with fuel for
structural (kernel-reducible) recursion.  Called with fuel at least n. -/
def natDigsAux : Nat → Nat → List Char → List Char
  | 0, _, acc => acc
  | fuel + 1, n, acc =>
    if n < 10 then digitChar n :: acc
    else natDigsAux fuel (n / 10) (digitChar (n % 10) :: acc)

/-- Decimal representation of a natural number. -/
def natRepr (n : Nat) : String := String.mk (natDigsAux (n + 1) n [])

/-- Decimal representation of an integer, as JS ToString on an integral
number. -/
def intRepr (i : Int) : String :=
  (if i < 0 then "-" else "") ++ natRepr i.natAbs

/-- Two-digit zero padding, as the 2-digit options of Intl.DateTimeFormat. -/
def pad2 (n : Nat) : String :=
  (if n < 10 then "0" else "") ++ natRepr n

/-- Three-digit zero padding for milliseconds in the ISO form. -/
def pad3 (n : Nat) : String :=
  (if n < 10 then "00" else if n < 100 then "0" else "") ++ natRepr n

/-- Four-digit zero padding for years in the ISO form. -/
def pad4 (n : Nat) : String :=
  (if n < 10 then "000" else if n < 100 then "00" else if n < 1000 then "0" else "") ++ natRepr n

/-- Lower-casing of a string, modelling String.prototype.toLowerCase. -/
def lowerStr (s : String) : String := String.mk (s.data.map Char.toLower)

/-- Trimming of surrounding whitespace, modelling String.prototype.trim. -/
def trimStr (s : String) : String :=
  String.mk (((s.data.dropWhile Char.isWhitespace).reverse.dropWhile Char.isWhitespace).reverse)

/-- Substring test on character lists. -/
def strContainsAux (pat : List Char) : List Char → Bool
  | [] => pat.isPrefixOf []
  | c :: t => pat.isPrefixOf (c :: t) || strContainsAux pat t

/-- Substring test, modelling String.prototype.includes. -/
def strContains (hay pat : String) : Bool := strContainsAux pat.data hay.data

/-- Quote escaping of downloadAsCSV: the replace of every double quote by
two double quotes. -/
def escapeQuotes (s : String) : String :=
  String.mk (s.data.flatMap (fun c => if c = '"' then ['"', '"'] else [c]))

/- ## Date model.  A Date cell carries its time value t in milliseconds
since the epoch.  The UTC accessors the source uses are exact integer
arithmetic on t; the textual forms produced by external formatters are
modelled by concrete functions below. -/

/-- Civil date (year, month 1..12, day 1..31) of a day number counted from
1970-01-01, by the standard days-to-civil algorithm on integers. -/
def civilFromDays (z0 : Int) : Int × Nat × Nat :=
  let z := z0 + 719468
  let era := Int.fdiv z 146097
  let doe := (z - era * 146097).toNat
  let yoe := (doe - doe / 1460 + doe / 36524 - doe / 146096) / 365
  let y := (yoe : Int) + era * 400
  let doy := doe - (365 * yoe + yoe / 4 - yoe / 100)
  let mp := (5 * doy + 2) / 153
  let d := doy - (153 * mp + 2) / 5 + 1
  let m := if mp < 10 then mp + 3 else mp - 9
  (if m ≤ 2 then y + 1 else y, m, d)

/-- Milliseconds elapsed within the UTC day of instant t. -/
def timeOfDayMs (t : Int) : Nat := (Int.emod t 86400000).toNat

/-- Day number (from the epoch) of instant t. -/
def daysFromMs (t : Int) : Int := Int.fdiv t 86400000

/-- getUTCHours of instant t. -/
def utcHours (t : Int) : Nat := timeOfDayMs t / 3600000

/-- getUTCMinutes of instant t. -/
def utcMinutes (t : Int) : Nat := timeOfDayMs t % 3600000 / 60000

/-- getUTCSeconds of instant t. -/
def utcSeconds (t : Int) : Nat := timeOfDayMs t % 60000 / 1000

/-- getUTCMilliseconds of instant t. -/
def utcMillis (t : Int) : Nat := timeOfDayMs t % 1000

/-- Short month names used by the short month option of the formatter. -/
def monthShort (m : Nat) : String :=
  match m with
  | 1 => "Jan"
  | 2 => "Feb"
  | 3 => "Mar"
  | 4 => "Apr"
  | 5 => "May"
  | 6 => "Jun"
  | 7 => "Jul"
  | 8 => "Aug"
  | 9 => "Sep"
  | 10 => "Oct"
  | 11 => "Nov"
  | _ => "Dec"

/-- The ISO serialization of a valid instant, as Date.prototype.toISOString
produces for years 0..9999 (model; used by JSON.stringify on Date cells via
Date.prototype.toJSON). -/
def isoString (t : Int) : String :=
  let c := civilFromDays (daysFromMs t)
  (if c.1 < 0 then "-" ++ pad4 c.1.natAbs else pad4 c.1.toNat)
    ++ "-" ++ pad2 c.2.1 ++ "-" ++ pad2 c.2.2
    ++ "T" ++ pad2 (utcHours t) ++ ":" ++ pad2 (utcMinutes t) ++ ":" ++ pad2 (utcSeconds t)
    ++ "." ++ pad3 (utcMillis t) ++ "Z"

/-- formatDateOrTimestamp of the source: the empty string for a value that
is not a Date with a valid instant; otherwise, when the UTC hour, minute
and second are all zero, a date-only en-IN form (2-digit day, short month,
numeric year), else date plus 12-hour time with a day period.  The en-IN
output of Intl.DateTimeFormat is modelled concretely; no claim depends on
its exact shape, only on the empty-string case and on which cells reach
this function. -/
def formatDateOrTimestamp (t : Option Int) : String :=
  match t with
  | none => ""
  | some tv =>
    let isDateOnly := utcHours tv = 0 ∧ utcMinutes tv = 0 ∧ utcSeconds tv = 0
    let c := civilFromDays (daysFromMs tv)
    let datePart := pad2 c.2.2 ++ " " ++ monthShort c.2.1 ++ " " ++ intRepr c.1
    if isDateOnly then datePart
    else
      let h := utcHours tv
      let h12 := if h % 12 = 0 then 12 else h % 12
      datePart ++ ", " ++ pad2 h12 ++ ":" ++ pad2 (utcMinutes tv)
        ++ " " ++ (if h < 12 then "am" else "pm")

/-- Model of Date.prototype.toString for a valid instant (used only through
the generic String(cell) fallback; no claim depends on its exact text). -/
def jsDateToString (t : Int) : String := isoString t

/- ## JS ToString for numbers and generic values -/

/-- Digits after the decimal point of a fraction r / den by long division,
with fuel (at most 20 digits; the decimals appearing in this development
terminate well before that).  Models the shortest round-trip decimal of JS
number ToString for the exact rationals used here. -/
def fracDigsAux : Nat → Nat → Nat → List Char
  | 0, _, _ => []
  | fuel + 1, r, den =>
    if r = 0 then []
    else digitChar (r * 10 / den) :: fracDigsAux fuel (r * 10 % den) den

/-- JS ToString of a finite number value. -/
def jsNumToString (q : ℚ) : String :=
  if q.den = 1 then intRepr q.num
  else
    (if q.num < 0 then "-" else "")
      ++ natRepr (q.num.natAbs / q.den) ++ "."
      ++ String.mk (fracDigsAux 20 (q.num.natAbs % q.den) q.den)

mutual
/-- JS abstract ToString of a cell value, as produced by String(cell) and
by template interpolation: null prints null, booleans print true or false,
numbers their decimal form, arrays join their elements with commas
(Array.prototype.toString), Date objects their date string, and other
objects print the object-Object placeholder. -/
def jsToString : Cell → String
  | .null => "null"
  | .bool b => if b then "true" else "false"
  | .num q => jsNumToString q
  | .nan => "NaN"
  | .str s => s
  | .arr l => strJoin "," (jsJoinElems l)
  | .date none => "Invalid Date"
  | .date (some t) => jsDateToString t
  | .url _ _ => "[object Object]"
  | .button _ _ _ _ _ => "[object Object]"
  | .obj _ => "[object Object]"

/-- Elements of an array as Array.prototype.join renders them: null and
undefined become the empty string, the rest their ToString form. -/
def jsJoinElems : List Cell → List String
  | [] => []
  | c :: t => (if isNullCell c then "" else jsToString c) :: jsJoinElems t
end

/-- Array.prototype.join with a separator, on cell elements. -/
def jsJoin (sep : String) (l : List Cell) : String := strJoin sep (jsJoinElems l)

/- ## JSON serialization (JSON.stringify with and without an indent) -/

/-- JSON string escaping: backslash, double quote, and the common control
characters. -/
def jsonEscapeChar (c : Char) : List Char :=
  if c = '"' then ['\\', '"']
  else if c = '\\' then ['\\', '\\']
  else if c = '\n' then ['\\', 'n']
  else if c = '\t' then ['\\', 't']
  else if c = '\r' then ['\\', 'r']
  else [c]

/-- A JSON string literal with its surrounding quotes. -/
def jsonQuote (s : String) : String :=
  "\"" ++ String.mk (s.data.flatMap jsonEscapeChar) ++ "\""

/-- A run of n spaces. -/
def indentStr (n : Nat) : String := String.mk (List.replicate n ' ')

/-- Bracketed, separated aggregate layout of JSON.stringify: compact when
the indent size is 0, otherwise each item on its own line indented one
level deeper, with the closing bracket back at the outer level.  An empty
aggregate prints as the two brackets. -/
def jsonSeq (isz lvl : Nat) (opn cls : String) (items : List String) : String :=
  if items = [] then opn ++ cls
  else if isz = 0 then opn ++ strJoin "," items ++ cls
  else
    opn ++ "\n"
      ++ strJoin ",\n" (items.map (fun s => indentStr ((lvl + 1) * isz) ++ s))
      ++ "\n" ++ indentStr (lvl * isz) ++ cls

/-- One serialized JSON object member: quoted key, colon (with a space
after it exactly when an indent is in effect, as JSON.stringify formats
members), and an already serialized value. -/
def jsonMember (isz : Nat) (k v : String) : String :=
  jsonQuote k ++ (if isz = 0 then ":" else ": ") ++ v

/-- A serialized boolean JSON value. -/
def jsonBool (b : Bool) : String := if b then "true" else "false"

mutual
/-- JSON.stringify of a cell with an indent size (0 models the compact
one-argument call, 2 models JSON.stringify(cell, null, 2)) at nesting
level lvl.  NaN serializes as null, a Date serializes through its toJSON:
the quoted ISO string when the instant is valid and null otherwise; the
duck-typed url and button objects serialize as plain objects over their
present fields (an absent optional field is omitted, as JSON.stringify
omits undefined properties). -/
def jsonStringify (isz lvl : Nat) : Cell → String
  | .null => "null"
  | .bool b => jsonBool b
  | .num q => jsNumToString q
  | .nan => "null"
  | .str s => jsonQuote s
  | .date none => "null"
  | .date (some t) => "\"" ++ isoString t ++ "\""
  | .arr l => jsonSeq isz lvl "[" "]" (jsonElems isz (lvl + 1) l)
  | .url v p => jsonSeq isz lvl "\x7b" "\x7d"
      ([jsonMember isz "type" (jsonQuote "url"), jsonMember isz "value" (jsonQuote v)]
        ++ (match p with | none => [] | some s => [jsonMember isz "placeholder" (jsonQuote s)]))
  | .button f p cb cbv cbl => jsonSeq isz lvl "\x7b" "\x7d"
      ([jsonMember isz "type" (jsonQuote "button"), jsonMember isz "function" (jsonQuote f)]
        ++ (match p with | none => [] | some s => [jsonMember isz "placeholder" (jsonQuote s)])
        ++ [jsonMember isz "checkbox" (jsonBool cb), jsonMember isz "checkboxValue" (jsonBool cbv)]
        ++ (match cbl with | none => [] | some s => [jsonMember isz "checkboxLabel" (jsonQuote s)]))
  | .obj f => jsonSeq isz lvl "\x7b" "\x7d" (jsonFields isz (lvl + 1) f)

/-- Serialized elements of a JSON array. -/
def jsonElems (isz lvl : Nat) : List Cell → List String
  | [] => []
  | c :: t => jsonStringify isz lvl c :: jsonElems isz lvl t

/-- Serialized members of a generic JSON object. -/
def jsonFields (isz lvl : Nat) : List (String × Cell) → List String
  | [] => []
  | (k, v) :: t =>
    jsonMember isz k (jsonStringify isz lvl v) :: jsonFields isz lvl t
end

/- ## renderCell: the markup string produced for a cell (source lines
327-402).  The template literals are transcribed verbatim, including their
layout whitespace; interpolation holes that span source lines contribute
only their value.  Note the branch order of the source: the typeof-object
test precedes the Array.isArray and instanceof-Date tests, and arrays and
Date objects are typeof object in JS, so the two later branches are
unreachable; they are transcribed anyway and are dead here exactly as in
the source. -/

/-- The checkbox fragment of the button branch (the nested template
literal chosen when cell.checkbox is truthy). -/
def renderCheckboxFragment (checkedAttr : String) (rowIndex : Nat)
    (fname : String) (checkboxLabel : Option String) : String :=
  "\n                <label class=\"table-library-checkbox-label\">\n                  <input type=\"checkbox\" "
    ++ checkedAttr
    ++ "\n                    class=\"table-library-action-checkbox\" \n                    data-row-index=\""
    ++ natRepr rowIndex
    ++ "\"\n                    data-fn=\""
    ++ fname
    ++ "\" />\n                  <span>"
    ++ jsOrStr checkboxLabel "Mark"
    ++ "</span>\n                </label>\n              "

/-- The markup of the unreachable Array.isArray branch of renderCell,
transcribed for fidelity. -/
def renderArrayBranch (l : List Cell) : String :=
  if l.length = 0 then "<span class=\"table-library-empty\">[]</span>"
  else
    "<span class=\"table-library-array\" title=\"" ++ jsJoin ", " l
      ++ "\">[" ++ jsJoin ", " l ++ "]</span>"

/-- renderCell of the source: the HTML fragment string for one cell.  The
colIndex parameter is accepted and unused, as in the source. -/
def renderCell (cell : Cell) (rowIndex : Nat) (_colIndex : Nat) : String :=
  if isNullCell cell then "<span class=\"table-library-null\">-</span>"
  else if jsTypeofObject cell then
    match cell with
    | .url value placeholder =>
      "<a href=\"" ++ value ++ "\" target=\"_blank\" class=\"table-library-url\">"
        ++ jsOrStr placeholder "Open" ++ "</a>"
    | .button fname placeholder checkbox checkboxValue checkboxLabel =>
      let hasCheckbox := if checkbox then "has-checkbox" else ""
      let checkedAttr := if checkboxValue then "checked" else ""
      "\n            <div class=\"table-library-action-cell " ++ hasCheckbox
        ++ "\">\n              <button class=\"table-library-action-btn\" \n                      data-fn=\""
        ++ fname
        ++ "\" \n                      data-row-index=\""
        ++ natRepr rowIndex
        ++ "\">\n                "
        ++ jsOrStr placeholder "Action"
        ++ "\n              </button>\n              "
        ++ (if checkbox then renderCheckboxFragment checkedAttr rowIndex fname checkboxLabel else "")
        ++ "\n            </div>\n          "
    | c => "<pre class=\"table-library-object\">" ++ jsonStringify 2 0 c ++ "</pre>"
  else
    match cell with
    | .arr l => renderArrayBranch l
    | .date (some t) =>
      "<span class=\"table-library-date\">" ++ formatDateOrTimestamp (some t) ++ "</span>"
    | .bool b =>
      "<span class=\"table-library-boolean " ++ (if b then "true" else "false")
        ++ "\">" ++ (if b then "Yes" else "No") ++ "</span>"
    | .num q => "<span class=\"table-library-number\">" ++ jsNumToString (q) ++ "</span>"
    | .nan => "<span class=\"table-library-number\">" ++ jsToString Cell.nan ++ "</span>"
    | c =>
      let text := jsToString c
      "<span class=\"table-library-text\" title=\"" ++ text ++ "\">" ++ text ++ "</span>"

/-- Text content of a markup string: the characters outside tags, with
quoted attribute values inside a tag skipped (so a quoted attribute may
contain the tag-closing character without ending the tag), as the DOM
exposes via Node.textContent after the fragment is assigned to innerHTML.
Entity references are not modelled; the templates above produce none. -/
def stripTagsGo : List Char → Bool → Option Char → List Char
  | [], _, _ => []
  | c :: rest, false, _ =>
    if c = '<' then stripTagsGo rest true none else c :: stripTagsGo rest false none
  | c :: rest, true, none =>
    if c = '>' then stripTagsGo rest false none
    else if c = '"' ∨ c = '\'' then stripTagsGo rest true (some c)
    else stripTagsGo rest true none
  | c :: rest, true, some q =>
    if c = q then stripTagsGo rest true none else stripTagsGo rest true (some q)

/-- Text content of a markup string (see stripTagsGo). -/
def stripTags (s : String) : String := String.mk (stripTagsGo s.data false none)

/-- The displayed text of a cell: the text content of the fragment
renderCell produces for it. -/
def renderedText (cell : Cell) (rowIndex colIndex : Nat) : String :=
  stripTags (renderCell cell rowIndex colIndex)

/-- getCellTextContent of the source (lines 407-437): the textual form a
cell contributes to the CSV export.  Branch order as in the source: null
test, typeof-object block (url, button, Array joined with a semicolon
separator, valid Date formatted, anything else through compact
JSON.stringify), boolean, then String(cell). -/
def getCellTextContent (cell : Cell) : String :=
  if isNullCell cell then ""
  else if jsTypeofObject cell then
    match cell with
    | .url _ placeholder => jsOrStr placeholder "Open"
    | .button _ placeholder _ _ _ => jsOrStr placeholder "Action"
    | .arr l => jsJoin "; " l
    | .date (some t) => formatDateOrTimestamp (some t)
    | c => jsonStringify 0 0 c
  else
    match cell with
    | .bool b => if b then "Yes" else "No"
    | c => jsToString c

/- ## Table state: the mutable fields of the TableLibrary instance. -/

/-- Sort direction: the strings asc and desc of the source. -/
inductive Dir where
  | asc
  | desc
  deriving DecidableEq

/-- this.sortState: active column index and direction, null modelled as
none. -/
structure SortState where
  colIndex : Option Nat
  direction : Option Dir
  deriving DecidableEq

/-- One hideColumns entry: a numeric column index, or any other value
treated as a heading label looked up with indexOf. -/
inductive HideSpec where
  | idx (i : Int)
  | label (s : String)

/-- The hideColumns configuration value: a bare entry or an array of
entries (the source wraps a non-array in a one-element array). -/
inductive HideColsConfig where
  | one (h : HideSpec)
  | many (l : List HideSpec)

/-- A modification rule: a JS function value applied as
rule(cell, row, rowIndex, colIndex); a throw is modelled as error. -/
abbrev RuleFn := Cell → Row → Nat → Nat → Except String Cell

/-- A value stored in modifyConfig: a function, or any non-function value
(skipped by the typeof function tests of applyModifications). -/
inductive ConfigVal where
  | fn (f : RuleFn)
  | nonFn

/-- modifyConfig: lookup of a property by string key. -/
abbrev ModifyConfig := String → Option ConfigVal

/-- The configuration slice of this.config that the data pipeline reads.
The DOM container, tableID and downloadConfig presentation options are
surface concerns and carry no pipeline data. -/
structure Config where
  headings : List String
  data : List Row
  hideCols : HideColsConfig
  modifyConfig : ModifyConfig

/-- The instance state: this.config plus the four mutable data fields and
sortState. -/
structure TableState where
  config : Config
  sortState : SortState
  processedData : List Row
  processedHeadings : List String
  filteredData : List Row
  displayData : List Row

/- ## applyModifications (source lines 66-93) -/

/-- Extract a rule function from a modifyConfig value, as the
typeof === function tests do. -/
def getFn : Option ConfigVal → Option RuleFn
  | some (.fn f) => some f
  | _ => none

/-- The rule looked up by heading for a column: modifyConfig at
headings[colIndex], when that property holds a function. -/
def ruleByHeading (mc : ModifyConfig) (headings : List String) (colIndex : Nat) :
    Option RuleFn :=
  match headings.get? colIndex with
  | some h => getFn (mc h)
  | none => none

/-- The rule looked up by coordinate: modifyConfig at the literal string
rowIndex,colIndex, when that property holds a function. -/
def ruleByIndex (mc : ModifyConfig) (rowIndex colIndex : Nat) : Option RuleFn :=
  getFn (mc (natRepr rowIndex ++ "," ++ natRepr colIndex))

/-- The per-cell body of applyModifications: a try block around the two
sequential applications.  A throw in the heading rule aborts the try, so
the coordinate rule is not attempted and the cell stays original; a throw
in the coordinate rule leaves the value the heading rule produced (the
variable modified keeps its pre-failure value).  Both rules receive the
original cell and the original row. -/
def modifyCell (mc : ModifyConfig) (headings : List String) (row : Row)
    (rowIndex colIndex : Nat) (cell : Cell) : Cell :=
  match ruleByHeading mc headings colIndex with
  | some f =>
    match f cell row rowIndex colIndex with
    | .error _ => cell
    | .ok v1 =>
      match ruleByIndex mc rowIndex colIndex with
      | some g =>
        match g cell row rowIndex colIndex with
        | .error _ => v1
        | .ok v2 => v2
      | none => v1
  | none =>
    match ruleByIndex mc rowIndex colIndex with
    | some g =>
      match g cell row rowIndex colIndex with
      | .error _ => cell
      | .ok v2 => v2
    | none => cell

/-- applyModifications: map the per-cell body over every cell of every
row. -/
def applyModifications (mc : ModifyConfig) (data : List Row)
    (headings : List String) : List Row :=
  data.mapIdx (fun rowIndex row =>
    row.mapIdx (fun colIndex cell => modifyCell mc headings row rowIndex colIndex cell))

/- ## hideColumns (source lines 98-111) -/

/-- The wrap of a non-array hideColumns value into a one-element array. -/
def normalizeHideCols : HideColsConfig → List HideSpec
  | .one h => [h]
  | .many l => l

/-- Array.prototype.indexOf on headings: the first matching position, or
minus one. -/
def jsIndexOfAux (s : String) : List String → Int → Int
  | [], _ => -1
  | h :: t, i => if h = s then i else jsIndexOfAux s t (i + 1)

/-- indexOf of a label in the headings. -/
def jsIndexOf (s : String) (l : List String) : Int := jsIndexOfAux s l 0

/-- The normalized hide indexes: numeric entries kept as they are, labels
resolved by indexOf, then everything below zero dropped (the filter
i greater-or-equal zero of the source). -/
def hideIndexes (hc : HideColsConfig) (headings : List String) : List Int :=
  ((normalizeHideCols hc).map (fun c =>
      match c with
      | .idx i => i
      | .label s => jsIndexOf s headings)).filter (fun i => 0 ≤ i)

/-- Array.prototype.filter with the element index: keep the elements at
positions satisfying p, preserving order.  i is the index of the first
element of the list. -/
def filterIdx (p : Nat → Bool) : List α → Nat → List α
  | [], _ => []
  | a :: t, i => if p i then a :: filterIdx p t (i + 1) else filterIdx p t (i + 1)

/-- hideColumns of the source: drop the headings and the row entries whose
position is in the hide indexes. -/
def hideColumns (hc : HideColsConfig) (headings : List String) (data : List Row) :
    List String × List Row :=
  let hi := hideIndexes hc headings
  (filterIdx (fun i => !(hi.contains (i : Int))) headings 0,
   data.map (fun row => filterIdx (fun i => !(hi.contains (i : Int))) row 0))

/- ## calculateMetric (source lines 126-145) -/

/-- The numeric value of a cell when typeof is number and the value is not
NaN, as the filter of calculateMetric selects. -/
def numValue : Cell → Option ℚ
  | .num q => some q
  | _ => none

/-- The column values of the filtered rows that pass the numeric filter. -/
def numericValuesAt (filteredData : List Row) (colIndex : Nat) : List ℚ :=
  (filteredData.map (fun row => row.getD colIndex Cell.null)).filterMap numValue

/-- Number.prototype.toFixed(2) on an exact rational: the integer n
nearest to 100 q, the larger one in a tie, then the digits with two
decimals. -/
def toFixed2 (q : ℚ) : String :=
  let n : Int := Int.fdiv (q.num * 200 + (q.den : Int)) (2 * (q.den : Int))
  (if n < 0 then "-" else "") ++ natRepr (n.natAbs / 100) ++ "." ++ pad2 (n.natAbs % 100)

/-- Maximum of a list of rationals with a seed, as Math.max over a spread
(called only on nonempty value lists here). -/
def listMax : ℚ → List ℚ → ℚ
  | m, [] => m
  | m, x :: t => listMax (if m ≤ x then x else m) t

/-- Minimum of a list of rationals with a seed, as Math.min. -/
def listMin : ℚ → List ℚ → ℚ
  | m, [] => m
  | m, x :: t => listMin (if x ≤ m then x else m) t

/-- calculateMetric of the source: collect the numeric (non-NaN) values of
the column across filteredData; the empty string when there are none;
otherwise the sum, average, maximum or minimum rendered with toFixed(2);
the empty string for an unknown metric name. -/
def calculateMetric (filteredData : List Row) (colIndex : Nat) (type : String) :
    String :=
  let values := numericValuesAt filteredData colIndex
  if values.length = 0 then ""
  else if type = "sum" then toFixed2 (values.foldl (· + ·) 0)
  else if type = "avg" then toFixed2 (values.foldl (· + ·) 0 / values.length)
  else if type = "max" then
    match values with
    | [] => ""
    | x :: t => toFixed2 (listMax x t)
  else if type = "min" then
    match values with
    | [] => ""
    | x :: t => toFixed2 (listMin x t)
  else ""

/- ## sortByColumn (source lines 150-184) -/

/-- Model of String.prototype.localeCompare: a three-way comparison of the
two strings.  The collation of the host locale is modelled as ordinary
lexicographic character comparison; no claim depends on the order itself,
only on the permutation property of the sort. -/
def localeCompare (a b : String) : Int :=
  match compare a b with
  | .lt => -1
  | .eq => 0
  | .gt => 1

/-- The comparator passed to Array.prototype.sort, turned into the
not-greater relation a stable sort consumes: true when comparator(a,b) is
not positive.  Both operands typeof number (including NaN): numeric
difference, with a NaN operand making the comparator NaN, which sort
treats as zero; otherwise localeCompare of the String forms.  The
direction flips the operand order exactly as in the source. -/
def jsSortLe (colIndex : Nat) (dir : Dir) (a b : Row) : Bool :=
  let valA := a.getD colIndex Cell.null
  let valB := b.getD colIndex Cell.null
  if isJsNumberCell valA && isJsNumberCell valB then
    match valA, valB with
    | .num x, .num y =>
      match dir with
      | .asc => decide (x - y ≤ 0)
      | .desc => decide (y - x ≤ 0)
    | _, _ => true
  else
    match dir with
    | .asc => decide (localeCompare (jsToString valA) (jsToString valB) ≤ 0)
    | .desc => decide (localeCompare (jsToString valB) (jsToString valA) ≤ 0)

/-- sortByColumn of the source: compute the new direction from the
tri-state rule, store the new sortState (column null when the direction is
null), then either reset displayData to a copy of processedData (direction
null) or stably sort displayData in place by the comparator, and finally
reset filteredData to a copy of the new displayData.  The trailing
refreshTableBody call only repaints the DOM from displayData. -/
def sortByColumn (st : TableState) (colIndex : Nat) : TableState :=
  let activeCol := st.sortState.colIndex
  let direction := st.sortState.direction
  let newDirection : Option Dir :=
    if activeCol = some colIndex ∧ direction = some .asc then some .desc
    else if activeCol = some colIndex ∧ direction = some .desc then none
    else some .asc
  let newDisplay :=
    match newDirection with
    | none => st.processedData
    | some d => st.displayData.mergeSort (jsSortLe colIndex d)
  { st with
    sortState :=
      { colIndex := if newDirection.isSome then some colIndex else none,
        direction := newDirection },
    displayData := newDisplay,
    filteredData := newDisplay }

/- ## filterTable (source lines 484-514, the data effect) -/

/-- The text content of the td element holding a cell, as filterTable
reads it back from the tbody painted from displayData (the layout
whitespace of the td template pads the text and is immaterial to the
claims below, which never constrain whitespace in filters). -/
def cellFilterText (cell : Cell) (colIndex : Nat) : String :=
  renderedText cell 0 colIndex

/-- Visibility of one row under the filter inputs: every input with a
nonempty trimmed lowercased value must occur as a substring of the
lowercased text of the cell in its column; a missing cell reads as the
empty string. -/
def rowVisible (filters : List String) (row : Row) : Bool :=
  (List.range filters.length).all (fun i =>
    let f := lowerStr (trimStr (filters.getD i ""))
    if f = "" then true
    else strContains (lowerStr (((row.get? i).map (fun c => cellFilterText c i)).getD "")) f)

/-- filterTable of the source: recompute filteredData as the rows of
displayData whose painted tr stays visible under the current inputs. -/
def filterTable (st : TableState) (filters : List String) : TableState :=
  { st with filteredData := st.displayData.filter (rowVisible filters) }

/- ## init (source lines 442-466, the data effect) and the public API -/

/-- init of the source: project away hidden columns, apply the
modification rules to the projected data, then seed processedData,
processedHeadings, and fresh copies for filteredData and displayData.
The container lookup and innerHTML paint are surface effects.  sortState
was set to null/null by the constructor before init runs. -/
def initTable (cfg : Config) : TableState :=
  let processed := hideColumns cfg.hideCols cfg.headings cfg.data
  let finalData := applyModifications cfg.modifyConfig processed.2 processed.1
  { config := cfg,
    sortState := { colIndex := none, direction := none },
    processedData := finalData,
    processedHeadings := processed.1,
    filteredData := finalData,
    displayData := finalData }

/-- getData of the source: the raw configured rows. -/
def getData (st : TableState) : List Row := st.config.data

/-- getFilteredData of the source. -/
def getFilteredData (st : TableState) : List Row := st.filteredData

/-- The user-triggered operations that mutate the view state after
initialization. -/
inductive Op where
  | sortCol (c : Nat)
  | filt (fs : List String)

/-- One operation applied to the state. -/
def step (st : TableState) : Op → TableState
  | .sortCol c => sortByColumn st c
  | .filt fs => filterTable st fs

/-- The state after initialization and a sequence of sort and filter
operations. -/
def run (cfg : Config) (ops : List Op) : TableState :=
  ops.foldl step (initTable cfg)

/- ## downloadAsCSV (source lines 651-689, the serialization) -/

/-- One CSV field: the export text of the cell with embedded double
quotes doubled, wrapped in double quotes. -/
def csvField (cell : Cell) : String :=
  "\"" ++ escapeQuotes (getCellTextContent cell) ++ "\""

/-- The CSV text downloadAsCSV builds: an optional header line of the
quoted headings joined with commas, then one line per filtered row of the
quoted escaped fields joined with commas, each line terminated by a
newline. -/
def csvContent (headers : List String) (data : List Row) (includeHeaders : Bool) :
    String :=
  let start := if includeHeaders then strJoin "," (headers.map (fun h => "\"" ++ h ++ "\"")) ++ "\n" else ""
  data.foldl (fun acc row => acc ++ strJoin "," (row.map csvField) ++ "\n") start

/-- downloadAsCSV of the source: serialize processedHeadings and
filteredData (the blob creation and anchor click are surface effects). -/
def downloadAsCSV (st : TableState) (includeHeaders : Bool) : String :=
  csvContent st.processedHeadings st.filteredData includeHeaders

/- ## Helper lemmas for the view-state claims -/

/-- A step never writes the config field. -/
theorem step_config (st : TableState) (op : Op) : (step st op).config = st.config := by
  cases op <;> rfl

/-- A fold of steps never writes the config field. -/
theorem foldl_step_config (ops : List Op) (st : TableState) :
    (ops.foldl step st).config = st.config := by
  induction ops generalizing st with
  | nil => rfl
  | cons op t ih => rw [List.foldl_cons, ih, step_config]

/-- The view-triad invariant of the spec as a predicate on the state. -/
def ViewTriadInv (st : TableState) : Prop :=
  List.Sublist st.filteredData st.displayData ∧
    List.Perm st.displayData st.processedData

/-- Initialization establishes the view-triad invariant. -/
theorem initTable_viewTriad (cfg : Config) : ViewTriadInv (initTable cfg) :=
  ⟨List.Sublist.refl _, List.Perm.refl _⟩

/-- A sort step preserves the view-triad invariant. -/
theorem sortByColumn_viewTriad (st : TableState) (c : Nat)
    (h : ViewTriadInv st) : ViewTriadInv (sortByColumn st c) := by
  unfold ViewTriadInv sortByColumn
  refine ⟨List.Sublist.refl _, ?_⟩
  dsimp only
  split
  · exact List.Perm.refl _
  · exact (List.mergeSort_perm st.displayData _).trans h.2

/-- A filter step preserves the view-triad invariant. -/
theorem filterTable_viewTriad (st : TableState) (fs : List String)
    (h : ViewTriadInv st) : ViewTriadInv (filterTable st fs) :=
  ⟨List.filter_sublist st.displayData, h.2⟩

/-- Any step preserves the view-triad invariant. -/
theorem step_viewTriad (st : TableState) (op : Op)
    (h : ViewTriadInv st) : ViewTriadInv (step st op) := by
  cases op with
  | sortCol c => exact sortByColumn_viewTriad st c h
  | filt fs => exact filterTable_viewTriad st fs h

/-- A fold of steps preserves the view-triad invariant. -/
theorem foldl_step_viewTriad (ops : List Op) (st : TableState)
    (h : ViewTriadInv st) : ViewTriadInv (ops.foldl step st) := by
  induction ops generalizing st with
  | nil => exact h
  | cons op t ih => exact ih (step st op) (step_viewTriad st op h)

/- ## Claim C6 -/

/-- C6: after initialization and after every sequence of sort and filter
operations, filteredRows is a subsequence of displayedRows and
displayedRows is a permutation of processedRows. -/
theorem viewTriad_invariant_holds (cfg : Config) (ops : List Op) :
    List.Sublist (run cfg ops).filteredData (run cfg ops).displayData ∧
      List.Perm (run cfg ops).displayData (run cfg ops).processedData :=
  foldl_step_viewTriad ops (initTable cfg) (initTable_viewTriad cfg)

/- ## Claim C1 -/

/-- C1: sortByColumn follows the tri-state cycle on sortState: with no
active sort, a request yields the requested column ascending; requesting
the active ascending column yields descending; requesting the active
descending column clears the sort state and resets displayData to
processedData itself (the original processed order, as list equality),
leaving processedData unchanged; requesting a column different from the
active one always yields ascending on the new column, discarding the old
state.  Quantifying over an arbitrary state covers every state reachable
from an initialized table by any sequence of operations. -/
theorem sort_tristate_cycle (st : TableState) (c : Nat) :
    (st.sortState = ⟨none, none⟩ →
        (sortByColumn st c).sortState = ⟨some c, some Dir.asc⟩) ∧
    (st.sortState = ⟨some c, some Dir.asc⟩ →
        (sortByColumn st c).sortState = ⟨some c, some Dir.desc⟩) ∧
    (st.sortState = ⟨some c, some Dir.desc⟩ →
        (sortByColumn st c).sortState = ⟨none, none⟩ ∧
          (sortByColumn st c).displayData = st.processedData ∧
          (sortByColumn st c).processedData = st.processedData) ∧
    (∀ c', st.sortState.colIndex = some c' → c' ≠ c →
        (sortByColumn st c).sortState = ⟨some c, some Dir.asc⟩) := by
  refine ⟨?_, ?_, ?_, ?_⟩
  · intro h
    simp [sortByColumn, h]
  · intro h
    simp [sortByColumn, h]
  · intro h
    refine ⟨?_, ?_, rfl⟩ <;> simp [sortByColumn, h]
  · intro c' h hne
    simp [sortByColumn, h, hne]

/-- Witness for C1: on a freshly initialized table (sortState none/none),
requesting column 0 activates ascending on column 0. -/
theorem sort_tristate_cycle_witness :
    (sortByColumn
        (initTable
          { headings := ["Name"], data := [[Cell.str "Al"]],
            hideCols := .many [], modifyConfig := fun _ => none })
        0).sortState = ⟨some 0, some Dir.asc⟩ :=
  (sort_tristate_cycle _ 0).1 rfl

/- ## Claim C5 -/

/-- C5: immediately after any sort request, whether it sets a direction or
resets to none, filteredData equals the new displayData; moreover the
resulting filteredData does not depend on the filteredData held before the
sort, so previously active column filters are not reapplied by the sort
itself. -/
theorem sort_resets_filteredData (st : TableState) (c : Nat) :
    (sortByColumn st c).filteredData = (sortByColumn st c).displayData ∧
      (∀ fd : List Row,
        (sortByColumn { st with filteredData := fd } c).filteredData =
          (sortByColumn st c).filteredData) :=
  ⟨rfl, fun _ => rfl⟩

/- ## Claim C10 -/

/-- C10: initialization and every subsequent sort and filter operation
leave the raw configured data untouched: the config headings and rows of
the resulting state are the very values passed in, and getData returns
exactly those raw rows, not the projected, modified or sorted ones.
Modification rules are mathematical functions in this embedding, so the
purity proviso of the claim is intrinsic. -/
theorem raw_config_preserved (cfg : Config) (ops : List Op) :
    (run cfg ops).config.headings = cfg.headings ∧
      (run cfg ops).config.data = cfg.data ∧
      getData (run cfg ops) = cfg.data := by
  have h : (run cfg ops).config = cfg := by
    unfold run
    rw [foldl_step_config]
    rfl
  exact ⟨by rw [h], by rw [h], by unfold getData; rw [h]⟩

/- ## Claim C3 -/

/-- The heading rule of the C3 counterexample: succeeds, replacing the
cell by the string X. -/
def ruleC3Heading : RuleFn := fun _ _ _ _ => .ok (Cell.str "X")

/-- The coordinate rule of the C3 counterexample: always throws. -/
def ruleC3Coord : RuleFn := fun _ _ _ _ => .error "boom"

/-- The modifyConfig of the C3 counterexample: a heading rule on Name and
a coordinate rule on 0,0. -/
def mcC3 : ModifyConfig := fun k =>
  if k = "Name" then some (.fn ruleC3Heading)
  else if k = "0,0" then some (.fn ruleC3Coord)
  else none

/-- Counterexample for C3: at cell (0,0) of the single row, the heading
rule succeeds with the value X and the coordinate rule then throws; the
cell in the output is X, the heading-rule result, not the original
unmodified input value Al, refuting the claim that a throwing rule leaves
the cell equal to the original input cell. -/
theorem modification_error_not_original :
    ruleC3Coord (Cell.str "Al") [Cell.str "Al"] 0 0 = .error "boom" ∧
      applyModifications mcC3 [[Cell.str "Al"]] ["Name"] = [[Cell.str "X"]] ∧
      Cell.str "X" ≠ Cell.str "Al" := by
  refine ⟨rfl, rfl, ?_⟩
  intro h
  injection h with h1
  exact absurd h1 (by decide)

/-- C3 amended: when a rule application throws, the cell keeps its value
from before the failing application: if the heading rule throws, the try
block aborts (so the coordinate rule is skipped) and the cell stays the
original; if the heading rule succeeded and the coordinate rule throws,
the cell keeps the heading-rule result; if no heading rule applies and the
coordinate rule throws, the cell stays the original.  Processing of all
other cells continues: the output has one row per input row and each cell
position is mapped independently. -/
theorem modification_error_fallback (mc : ModifyConfig) (headings : List String)
    (row : Row) (rowIndex colIndex : Nat) (cell : Cell) (data : List Row) :
    (∀ f e, ruleByHeading mc headings colIndex = some f →
        f cell row rowIndex colIndex = .error e →
        modifyCell mc headings row rowIndex colIndex cell = cell) ∧
    (∀ f g v1 e, ruleByHeading mc headings colIndex = some f →
        f cell row rowIndex colIndex = .ok v1 →
        ruleByIndex mc rowIndex colIndex = some g →
        g cell row rowIndex colIndex = .error e →
        modifyCell mc headings row rowIndex colIndex cell = v1) ∧
    (∀ g e, ruleByHeading mc headings colIndex = none →
        ruleByIndex mc rowIndex colIndex = some g →
        g cell row rowIndex colIndex = .error e →
        modifyCell mc headings row rowIndex colIndex cell = cell) ∧
    (applyModifications mc data headings).length = data.length ∧
    (∀ r rowv, data.get? r = some rowv →
        (applyModifications mc data headings).get? r =
          some (rowv.mapIdx (fun ci cl => modifyCell mc headings rowv r ci cl))) := by
  refine ⟨?_, ?_, ?_, ?_, ?_⟩
  · intro f e hf herr
    unfold modifyCell
    rw [hf]
    dsimp only
    rw [herr]
  · intro f g v1 e hf hok hg herr
    unfold modifyCell
    rw [hf]
    dsimp only
    rw [hok]
    dsimp only
    rw [hg]
    dsimp only
    rw [herr]
  · intro g e hf hg herr
    unfold modifyCell
    rw [hf]
    dsimp only
    rw [hg]
    dsimp only
    rw [herr]
  · unfold applyModifications
    rw [List.length_mapIdx]
  · intro r rowv hr
    unfold applyModifications
    rw [List.get?_eq_getElem?] at hr ⊢
    rw [List.getElem?_mapIdx, hr]
    rfl

/-- Witness for C3 amended: a heading rule that succeeds with the string
Mid followed by a coordinate rule that throws leaves the cell at the
heading-rule result Mid. -/
theorem modification_error_fallback_witness :
    modifyCell
      (fun k =>
        if k = "H" then some (.fn (fun _ _ _ _ => .ok (Cell.str "Mid")))
        else if k = "0,0" then some (.fn (fun _ _ _ _ => .error "boom"))
        else none)
      ["H"] [Cell.str "orig"] 0 0 (Cell.str "orig") = Cell.str "Mid" :=
  (modification_error_fallback _ ["H"] [Cell.str "orig"] 0 0 (Cell.str "orig") []).2.1
    _ _ (Cell.str "Mid") "boom" rfl rfl rfl rfl

/- ## Helper lemmas for the projection claim -/

/-- filterIdx keeps a subsequence of its input in order. -/
theorem filterIdx_sublist (p : Nat → Bool) (l : List α) (i : Nat) :
    List.Sublist (filterIdx p l i) l := by
  induction l generalizing i with
  | nil => exact List.Sublist.refl _
  | cons a t ih =>
    unfold filterIdx
    by_cases hp : p i
    · rw [if_pos hp]
      exact List.Sublist.cons₂ a (ih (i + 1))
    · rw [if_neg hp]
      exact List.Sublist.cons a (ih (i + 1))

/-- Two lists of the same length keep the same number of elements under
filterIdx at any starting index (the predicate only reads positions). -/
theorem filterIdx_length_congr (p : Nat → Bool) :
    ∀ (l₁ : List α) (l₂ : List β) (i : Nat), l₁.length = l₂.length →
      (filterIdx p l₁ i).length = (filterIdx p l₂ i).length := by
  intro l₁
  induction l₁ with
  | nil =>
    intro l₂ i h
    cases l₂ with
    | nil => rfl
    | cons b t₂ => simp at h
  | cons a t ih =>
    intro l₂ i h
    cases l₂ with
    | nil => simp at h
    | cons b t₂ =>
      simp only [List.length_cons, Nat.succ.injEq] at h
      by_cases hp : p i <;>
        simp [filterIdx, hp, ih t₂ (i + 1) h]

/-- The number of elements filterIdx keeps from position i is the number
of positions of the index range that satisfy the predicate. -/
theorem filterIdx_length_range' (p : Nat → Bool) (l : List α) :
    ∀ i : Nat, (filterIdx p l i).length = ((List.range' i l.length).filter p).length := by
  induction l with
  | nil => intro i; rfl
  | cons a t ih =>
    intro i
    rw [List.length_cons, List.range'_succ, List.filter_cons]
    by_cases hp : p i <;> simp [filterIdx, hp, ih (i + 1)]

/-- Splitting a filter by a predicate and its negation recovers the
length. -/
theorem length_filter_split (p : Nat → Bool) (l : List Nat) :
    (l.filter p).length + (l.filter (fun x => !(p x))).length = l.length := by
  induction l with
  | nil => rfl
  | cons a t ih =>
    rw [List.filter_cons, List.filter_cons]
    by_cases hp : p a <;> simp [hp] <;> omega

/- ## Claim C7 -/

/-- Counterexample for C7: with headings A, B and the hide specifiers
index 0 and label A, both specifiers resolve (the normalized index list is
0, 0), so the claimed output width len(headings) minus the number of
resolved specifiers would be 2 - 2 = 0, but the projection removes only
the single column 0 and the output headings have length 1. -/
theorem projection_resolved_count_counterexample :
    hideIndexes (.many [.idx 0, .label "A"]) ["A", "B"] = [0, 0] ∧
      (hideColumns (.many [.idx 0, .label "A"]) ["A", "B"]
          [[Cell.str "x", Cell.str "y"]]).1.length = 1 ∧
      (1 : Nat) ≠ 2 - 2 := by
  refine ⟨rfl, rfl, by decide⟩

/-- C7 amended: the projected headings and rows all have length
len(headings) minus the number of distinct in-range column positions
denoted by the resolved hide specifiers (counted as positions, so
duplicate specifiers for one column and out-of-range numeric indices
remove nothing extra); the width is uniform across the output rows
provided the input rows all have the headings length, and the relative
order of the remaining columns is preserved (output headings are a
subsequence of the headings, each output row a subsequence of its input
row). -/
theorem projection_uniform_length (hc : HideColsConfig) (headings : List String)
    (data : List Row) (h : ∀ row ∈ data, row.length = headings.length) :
    ((hideColumns hc headings data).1.length =
        headings.length -
          ((List.range headings.length).filter
              (fun i => (hideIndexes hc headings).contains ((i : Nat) : Int))).length) ∧
      (∀ row ∈ (hideColumns hc headings data).2,
          row.length = (hideColumns hc headings data).1.length) ∧
      List.Sublist (hideColumns hc headings data).1 headings ∧
      (∀ r row, data.get? r = some row →
          ∃ orow, (hideColumns hc headings data).2.get? r = some orow ∧
            List.Sublist orow row) := by
  set hi := hideIndexes hc headings with hhi
  set p : Nat → Bool := fun i => !(hi.contains ((i : Nat) : Int)) with hp
  have houth : (hideColumns hc headings data).1 = filterIdx p headings 0 := rfl
  have houtd :
      (hideColumns hc headings data).2 =
        data.map (fun row => filterIdx p row 0) := rfl
  refine ⟨?_, ?_, ?_, ?_⟩
  · rw [houth, filterIdx_length_range' p headings 0, ← List.range_eq_range']
    have hsplit := length_filter_split p (List.range headings.length)
    rw [List.length_range] at hsplit
    have hnot :
        (fun x => !(p x)) = fun i => hi.contains ((i : Nat) : Int) := by
      funext x
      rw [hp]
      exact Bool.not_not _
    rw [hnot] at hsplit
    omega
  · intro row hrow
    rw [houtd] at hrow
    rcases List.mem_map.mp hrow with ⟨row₀, hmem, hfr⟩
    rw [← hfr, houth]
    exact filterIdx_length_congr p row₀ headings 0 (h row₀ hmem)
  · rw [houth]
    exact filterIdx_sublist p headings 0
  · intro r row hr
    refine ⟨filterIdx p row 0, ?_, filterIdx_sublist p row 0⟩
    rw [houtd, List.get?_eq_getElem?, List.getElem?_map,
      ← List.get?_eq_getElem?, hr]
    rfl

/-- Witness for C7 amended: hiding column 1 of three uniform columns
leaves headings of length 3 - 1 = 2. -/
theorem projection_uniform_length_witness :
    (hideColumns (.many [.idx 1]) ["A", "B", "C"]
        [[Cell.str "a", Cell.str "b", Cell.str "c"]]).1.length = 2 := by
  have h :=
    (projection_uniform_length (.many [.idx 1]) ["A", "B", "C"]
        [[Cell.str "a", Cell.str "b", Cell.str "c"]]
        (by
          intro row hrow
          rcases List.mem_singleton.mp hrow with rfl
          rfl)).1
  exact h.trans (by decide)

/- ## Helper lemmas for the aggregation claim -/

/-- The two-way bound of the running comparison step of listMax. -/
theorem seedMax_le (m a : ℚ) :
    m ≤ (if m ≤ a then a else m) ∧ a ≤ (if m ≤ a then a else m) := by
  by_cases h : m ≤ a
  · rw [if_pos h]
    exact ⟨h, le_refl a⟩
  · rw [if_neg h]
    exact ⟨le_refl m, le_of_not_le h⟩

/-- The two-way bound of the running comparison step of listMin. -/
theorem seedMin_le (m a : ℚ) :
    (if a ≤ m then a else m) ≤ m ∧ (if a ≤ m then a else m) ≤ a := by
  by_cases h : a ≤ m
  · rw [if_pos h]
    exact ⟨h, le_refl a⟩
  · rw [if_neg h]
    exact ⟨le_refl m, le_of_not_le h⟩

/-- The running maximum is one of the seed or the list elements and bounds
all of them. -/
theorem listMax_spec (t : List ℚ) :
    ∀ m : ℚ, listMax m t ∈ m :: t ∧ ∀ x ∈ m :: t, x ≤ listMax m t := by
  induction t with
  | nil =>
    intro m
    refine ⟨List.mem_singleton.mpr rfl, ?_⟩
    intro x hx
    rw [List.mem_singleton.mp hx]
    exact le_refl _
  | cons a t ih =>
    intro m
    unfold listMax
    rcases ih (if m ≤ a then a else m) with ⟨hmem, hbound⟩
    have hseed := hbound _ (List.mem_cons_self _ _)
    constructor
    · rcases List.mem_cons.mp hmem with h1 | h1
      · rw [h1]
        by_cases hma : m ≤ a <;> simp [hma]
      · exact List.mem_cons_of_mem _ (List.mem_cons_of_mem _ h1)
    · intro x hx
      rcases List.mem_cons.mp hx with h1 | h1
      · subst h1
        exact le_trans (seedMax_le x a).1 hseed
      · rcases List.mem_cons.mp h1 with h2 | h2
        · subst h2
          exact le_trans (seedMax_le m x).2 hseed
        · exact hbound x (List.mem_cons_of_mem _ h2)

/-- The running minimum is one of the seed or the list elements and is
below all of them. -/
theorem listMin_spec (t : List ℚ) :
    ∀ m : ℚ, listMin m t ∈ m :: t ∧ ∀ x ∈ m :: t, listMin m t ≤ x := by
  induction t with
  | nil =>
    intro m
    refine ⟨List.mem_singleton.mpr rfl, ?_⟩
    intro x hx
    rw [List.mem_singleton.mp hx]
    exact le_refl _
  | cons a t ih =>
    intro m
    unfold listMin
    rcases ih (if a ≤ m then a else m) with ⟨hmem, hbound⟩
    have hseed := hbound _ (List.mem_cons_self _ _)
    constructor
    · rcases List.mem_cons.mp hmem with h1 | h1
      · rw [h1]
        by_cases hma : a ≤ m <;> simp [hma]
      · exact List.mem_cons_of_mem _ (List.mem_cons_of_mem _ h1)
    · intro x hx
      rcases List.mem_cons.mp hx with h1 | h1
      · subst h1
        exact le_trans hseed (seedMin_le x a).1
      · rcases List.mem_cons.mp h1 with h2 | h2
        · subst h2
          exact le_trans hseed (seedMin_le m x).2
        · exact hbound x (List.mem_cons_of_mem _ h2)

/- ## Claim C8 -/

/-- C8: for any filtered rows, column and metric in sum, avg, max, min:
when the column holds no native non-NaN numbers across the filtered rows,
calculateMetric returns the empty-string marker, which is neither a zero
form nor NaN; otherwise it returns the two-decimal rendering of the
arithmetic sum, of sum divided by count, of a maximum element bounding all
values, or of a minimum element below all values, respectively. -/
theorem aggregation_metric_spec (filteredData : List Row) (colIndex : Nat)
    (type : String) :
    (numericValuesAt filteredData colIndex = [] →
        calculateMetric filteredData colIndex type = "" ∧
          calculateMetric filteredData colIndex type ≠ "0" ∧
          calculateMetric filteredData colIndex type ≠ "0.00" ∧
          calculateMetric filteredData colIndex type ≠ "NaN") ∧
    (numericValuesAt filteredData colIndex ≠ [] →
        (type = "sum" →
            calculateMetric filteredData colIndex type =
              toFixed2 (numericValuesAt filteredData colIndex).sum) ∧
        (type = "avg" →
            calculateMetric filteredData colIndex type =
              toFixed2 ((numericValuesAt filteredData colIndex).sum /
                ((numericValuesAt filteredData colIndex).length : ℚ))) ∧
        (type = "max" →
            ∃ M ∈ numericValuesAt filteredData colIndex,
              (∀ x ∈ numericValuesAt filteredData colIndex, x ≤ M) ∧
                calculateMetric filteredData colIndex type = toFixed2 M) ∧
        (type = "min" →
            ∃ M ∈ numericValuesAt filteredData colIndex,
              (∀ x ∈ numericValuesAt filteredData colIndex, M ≤ x) ∧
                calculateMetric filteredData colIndex type = toFixed2 M)) := by
  constructor
  · intro h
    have hres : calculateMetric filteredData colIndex type = "" := by
      unfold calculateMetric
      rw [h]
      rfl
    refine ⟨hres, ?_, ?_, ?_⟩ <;> rw [hres] <;> decide
  · intro hne
    rcases hv : numericValuesAt filteredData colIndex with _ | ⟨x, t⟩
    · exact absurd hv hne
    have hlen : ¬((x :: t).length = 0) := by simp
    refine ⟨?_, ?_, ?_, ?_⟩
    · intro ht
      unfold calculateMetric
      rw [hv, ht]
      dsimp only
      rw [if_neg hlen, if_pos rfl, List.sum_eq_foldl]
    · intro ht
      unfold calculateMetric
      rw [hv, ht]
      dsimp only
      rw [if_neg hlen, if_neg (by decide : ¬("avg" = "sum")), if_pos rfl,
        List.sum_eq_foldl]
    · intro ht
      rcases listMax_spec t x with ⟨hmem, hbound⟩
      refine ⟨listMax x t, hmem, hbound, ?_⟩
      unfold calculateMetric
      rw [hv, ht]
      dsimp only
      rw [if_neg hlen, if_neg (by decide : ¬("max" = "sum")),
        if_neg (by decide : ¬("max" = "avg")), if_pos rfl]
    · intro ht
      rcases listMin_spec t x with ⟨hmem, hbound⟩
      refine ⟨listMin x t, hmem, hbound, ?_⟩
      unfold calculateMetric
      rw [hv, ht]
      dsimp only
      rw [if_neg hlen, if_neg (by decide : ¬("min" = "sum")),
        if_neg (by decide : ¬("min" = "avg")), if_neg (by decide : ¬("min" = "max")),
        if_pos rfl]

/-- Witness for C8: an empty table yields the empty marker for sum, and a
single numeric value 2 yields its own two-decimal average. -/
theorem aggregation_metric_spec_witness :
    calculateMetric [] 0 "sum" = "" ∧
      calculateMetric [[Cell.num 2]] 0 "avg" =
        toFixed2 ((numericValuesAt [[Cell.num 2]] 0).sum /
          ((numericValuesAt [[Cell.num 2]] 0).length : ℚ)) :=
  ⟨((aggregation_metric_spec [] 0 "sum").1 rfl).1,
    ((aggregation_metric_spec [[Cell.num 2]] 0 "avg").2 (by decide)).2.1 rfl⟩

/- ## Claim C9 -/

/-- Plain concatenation of a list of strings. -/
def strConcat : List String → String
  | [] => ""
  | x :: xs => x ++ strConcat xs

/-- One CSV data line: the quoted escaped fields joined with commas, then
a newline. -/
def csvRowLine (row : Row) : String := strJoin "," (row.map csvField) ++ "\n"

/-- The accumulator fold of downloadAsCSV concatenates the row lines after
the seed. -/
theorem csvContent_foldl (data : List Row) :
    ∀ s : String,
      data.foldl (fun acc row => acc ++ strJoin "," (row.map csvField) ++ "\n") s =
        s ++ strConcat (data.map csvRowLine) := by
  induction data with
  | nil =>
    intro s
    rw [List.foldl_nil, List.map_nil]
    exact (String.append_empty s).symm
  | cons row t ih =>
    intro s
    rw [List.foldl_cons, List.map_cons, ih]
    simp only [strConcat, csvRowLine, String.append_assoc]

/-- C9: the CSV text is the header line (each heading wrapped in double
quotes, unescaped, joined with commas, ended by a newline) when headers
are included, followed by one line per filtered row, each field being the
export text of its cell with embedded double quotes doubled and wrapped in
double quotes, fields joined with commas, each line terminated by a single
newline; in particular the rows Al, 26 under headings Name, Age with
headers produce exactly the quoted two-line text of the scenario. -/
theorem csv_export_format (headers : List String) (data : List Row)
    (includeHeaders : Bool) :
    csvContent headers data includeHeaders =
        (if includeHeaders then
            strJoin "," (headers.map (fun h => "\"" ++ h ++ "\"")) ++ "\n"
          else "")
          ++ strConcat (data.map csvRowLine) ∧
      (∀ cell : Cell, csvField cell = "\"" ++ escapeQuotes (getCellTextContent cell) ++ "\"") ∧
      csvContent ["Name", "Age"] [[Cell.str "Al", Cell.num 26]] true =
        "\"Name\",\"Age\"\n\"Al\",\"26\"\n" := by
  refine ⟨?_, fun _ => rfl, by decide⟩
  unfold csvContent
  rw [csvContent_foldl]

/- ## Tameness predicates: constraints on user strings embedded in markup
under which text-content extraction is exact.  A tame string avoids the
tag opener and the double quote (the attribute delimiter used by the
templates); embedded markup or quote characters would be parsed as markup
by the DOM exactly as by stripTags, but the claims are stated for cells
whose strings are plain text. -/

/-- No tag-opener character in a character list. -/
def NoLtL (l : List Char) : Prop := ∀ c ∈ l, c ≠ '<'

/-- No tag-opener character in a string. -/
def NoLtS (s : String) : Prop := NoLtL s.data

/-- A plain-text string: no tag opener, no double quote. -/
def TameStr (s : String) : Prop := ∀ c ∈ s.data, c ≠ '<' ∧ c ≠ '"'

/-- Tameness of an optional string. -/
def TameOpt : Option String → Prop
  | none => True
  | some s => TameStr s

mutual
/-- Every string embedded in the cell is tame. -/
def cellTame : Cell → Bool
  | .null => true
  | .bool _ => true
  | .num _ => true
  | .nan => true
  | .date _ => true
  | .str s => s.data.all (fun c => !(c = '<' || c = '"'))
  | .arr l => listTame l
  | .url v p => (v.data.all (fun c => !(c = '<' || c = '"'))) &&
      (match p with
       | none => true
       | some s => s.data.all (fun c => !(c = '<' || c = '"')))
  | .button f p _ _ cbl => (f.data.all (fun c => !(c = '<' || c = '"'))) &&
      (match p with
       | none => true
       | some s => s.data.all (fun c => !(c = '<' || c = '"'))) &&
      (match cbl with
       | none => true
       | some s => s.data.all (fun c => !(c = '<' || c = '"')))
  | .obj f => fieldsTame f

/-- Tameness of every cell of a list. -/
def listTame : List Cell → Bool
  | [] => true
  | c :: t => cellTame c && listTame t

/-- Tameness of every key and value of a field list. -/
def fieldsTame : List (String × Cell) → Bool
  | [] => true
  | (k, v) :: t =>
    (k.data.all (fun c => !(c = '<' || c = '"'))) && cellTame v && fieldsTame t
end

/-- A tame string has no tag opener. -/
theorem tame_noLt {s : String} (h : TameStr s) : NoLtS s :=
  fun c hc => (h c hc).1

/-- The all-tame Bool test implies the tameness proposition. -/
theorem all_tame_tameStr {s : String}
    (h : s.data.all (fun c => !(c = '<' || c = '"')) = true) : TameStr s := by
  intro c hc
  have := List.all_eq_true.mp h c hc
  constructor
  · intro he
    subst he
    simp at this
  · intro he
    subst he
    simp at this

/-- Concatenation preserves absence of the tag opener. -/
theorem noLt_append {a b : String} (ha : NoLtS a) (hb : NoLtS b) :
    NoLtS (a ++ b) := by
  intro c hc
  rw [String.data_append] at hc
  rcases List.mem_append.mp hc with h | h
  · exact ha c h
  · exact hb c h

/-- A string built from a character list avoiding the tag opener avoids
it. -/
theorem noLt_mk {l : List Char} (h : NoLtL l) : NoLtS (String.mk l) := h

/-- digitChar always yields a digit character, never markup. -/
theorem digitChar_noMarkup (d : Nat) : digitChar d ≠ '<' ∧ digitChar d ≠ '"' := by
  unfold digitChar
  split <;> exact (by decide)

/-- natDigsAux only prepends digit characters. -/
theorem natDigsAux_noMarkup :
    ∀ (fuel n : Nat) (acc : List Char), (∀ c ∈ acc, c ≠ '<' ∧ c ≠ '"') →
      ∀ c ∈ natDigsAux fuel n acc, c ≠ '<' ∧ c ≠ '"' := by
  intro fuel
  induction fuel with
  | zero => intro n acc h; exact h
  | succ f ih =>
    intro n acc h c hc
    rw [natDigsAux] at hc
    by_cases hn : n < 10
    · rw [if_pos hn] at hc
      rcases List.mem_cons.mp hc with h1 | h1
      · rw [h1]
        exact digitChar_noMarkup n
      · exact h c h1
    · rw [if_neg hn] at hc
      refine ih (n / 10) _ ?_ c hc
      intro d hd
      rcases List.mem_cons.mp hd with h1 | h1
      · rw [h1]
        exact digitChar_noMarkup (n % 10)
      · exact h d h1

/-- natRepr is all digits: tame. -/
theorem natRepr_tame (n : Nat) : TameStr (natRepr n) := by
  intro c hc
  exact natDigsAux_noMarkup (n + 1) n [] (by intro d hd; cases hd) c hc

/-- intRepr is a sign and digits: tame. -/
theorem intRepr_tame (i : Int) : TameStr (intRepr i) := by
  intro c hc
  unfold intRepr at hc
  rw [String.data_append] at hc
  rcases List.mem_append.mp hc with h | h
  · by_cases hi : i < 0
    · rw [if_pos hi] at h
      rcases List.mem_singleton.mp h with rfl
      exact (by decide)
    · rw [if_neg hi] at h
      cases h
  · exact natRepr_tame i.natAbs c h

/-- pad2 is tame. -/
theorem pad2_tame (n : Nat) : TameStr (pad2 n) := by
  intro c hc
  unfold pad2 at hc
  rw [String.data_append] at hc
  rcases List.mem_append.mp hc with h | h
  · by_cases hn : n < 10
    · rw [if_pos hn] at h
      rcases List.mem_singleton.mp h with rfl
      exact (by decide)
    · rw [if_neg hn] at h
      cases h
  · exact natRepr_tame n c h

/-- Membership in a concrete tame string yields the character facts. -/
def litTame (s : String) (h : ∀ d ∈ s.data, d ≠ '<' ∧ d ≠ '"') : TameStr s := h

/-- A concrete string with no tag opener. -/
def litNoLt (s : String) (h : ∀ d ∈ s.data, d ≠ '<') : NoLtS s := h

/-- A conditional of two strings without tag openers has none. -/
theorem noLt_ite {c : Prop} [Decidable c] {a b : String}
    (ha : NoLtS a) (hb : NoLtS b) : NoLtS (if c then a else b) := by
  by_cases h : c
  · rw [if_pos h]
    exact ha
  · rw [if_neg h]
    exact hb

/-- Concatenation preserves tameness. -/
theorem tame_append {a b : String} (ha : TameStr a) (hb : TameStr b) :
    TameStr (a ++ b) := by
  intro c hc
  rw [String.data_append] at hc
  rcases List.mem_append.mp hc with h | h
  · exact ha c h
  · exact hb c h

/-- A conditional of two tame strings is tame. -/
theorem tame_ite {c : Prop} [Decidable c] {a b : String}
    (ha : TameStr a) (hb : TameStr b) : TameStr (if c then a else b) := by
  by_cases h : c
  · rw [if_pos h]
    exact ha
  · rw [if_neg h]
    exact hb

/-- pad3 is tame. -/
theorem pad3_tame (n : Nat) : TameStr (pad3 n) := by
  unfold pad3
  exact tame_append
    (tame_ite (litTame "00" (by decide))
      (tame_ite (litTame "0" (by decide)) (litTame "" (by decide))))
    (natRepr_tame n)

/-- pad4 is tame. -/
theorem pad4_tame (n : Nat) : TameStr (pad4 n) := by
  unfold pad4
  exact tame_append
    (tame_ite (litTame "000" (by decide))
      (tame_ite (litTame "00" (by decide))
        (tame_ite (litTame "0" (by decide)) (litTame "" (by decide)))))
    (natRepr_tame n)

/-- fracDigsAux only emits digit characters. -/
theorem fracDigsAux_noMarkup :
    ∀ (fuel r den : Nat), ∀ c ∈ fracDigsAux fuel r den, c ≠ '<' ∧ c ≠ '"' := by
  intro fuel
  induction fuel with
  | zero => intro r den c hc; cases hc
  | succ f ih =>
    intro r den c hc
    rw [fracDigsAux] at hc
    by_cases hr : r = 0
    · rw [if_pos hr] at hc
      cases hc
    · rw [if_neg hr] at hc
      rcases List.mem_cons.mp hc with h1 | h1
      · rw [h1]
        exact digitChar_noMarkup _
      · exact ih _ den c h1

/-- jsNumToString is digits, sign and point: tame. -/
theorem jsNumToString_tame (q : ℚ) : TameStr (jsNumToString q) := by
  unfold jsNumToString
  refine tame_ite (intRepr_tame q.num) ?_
  refine tame_append (tame_append (tame_append ?_ (natRepr_tame _)) (litTame "." (by decide))) ?_
  · exact tame_ite (litTame "-" (by decide)) (litTame "" (by decide))
  · exact fracDigsAux_noMarkup 20 _ _

/-- The ISO serialization has no tag opener. -/
theorem isoString_noLt (t : Int) : NoLtS (isoString t) := by
  unfold isoString
  refine noLt_append (noLt_append (noLt_append (noLt_append (noLt_append
    (noLt_append (noLt_append (noLt_append (noLt_append (noLt_append
    (noLt_append (noLt_append (noLt_append ?_ ?_) ?_) ?_) ?_) ?_) ?_) ?_)
    ?_) ?_) ?_) ?_) ?_) ?_
  · exact noLt_ite
      (noLt_append (litNoLt "-" (by decide)) (tame_noLt (pad4_tame _)))
      (tame_noLt (pad4_tame _))
  · exact litNoLt "-" (by decide)
  · exact tame_noLt (pad2_tame _)
  · exact litNoLt "-" (by decide)
  · exact tame_noLt (pad2_tame _)
  · exact litNoLt "T" (by decide)
  · exact tame_noLt (pad2_tame _)
  · exact litNoLt ":" (by decide)
  · exact tame_noLt (pad2_tame _)
  · exact litNoLt ":" (by decide)
  · exact tame_noLt (pad2_tame _)
  · exact litNoLt "." (by decide)
  · exact tame_noLt (pad3_tame _)
  · exact litNoLt "Z" (by decide)

/-- JSON escaping never introduces a tag opener. -/
theorem jsonEscapeChar_noLt (c : Char) (h : c ≠ '<') :
    ∀ d ∈ jsonEscapeChar c, d ≠ '<' := by
  intro d hd
  unfold jsonEscapeChar at hd
  by_cases h1 : c = '"'
  · rw [if_pos h1] at hd
    rcases List.mem_cons.mp hd with rfl | hd
    · decide
    · rcases List.mem_singleton.mp hd with rfl
      decide
  · rw [if_neg h1] at hd
    by_cases h2 : c = '\\'
    · rw [if_pos h2] at hd
      rcases List.mem_cons.mp hd with rfl | hd
      · decide
      · rcases List.mem_singleton.mp hd with rfl
        decide
    · rw [if_neg h2] at hd
      by_cases h3 : c = '\n'
      · rw [if_pos h3] at hd
        rcases List.mem_cons.mp hd with rfl | hd
        · decide
        · rcases List.mem_singleton.mp hd with rfl
          decide
      · rw [if_neg h3] at hd
        by_cases h4 : c = '\t'
        · rw [if_pos h4] at hd
          rcases List.mem_cons.mp hd with rfl | hd
          · decide
          · rcases List.mem_singleton.mp hd with rfl
            decide
        · rw [if_neg h4] at hd
          by_cases h5 : c = '\r'
          · rw [if_pos h5] at hd
            rcases List.mem_cons.mp hd with rfl | hd
            · decide
            · rcases List.mem_singleton.mp hd with rfl
              decide
          · rw [if_neg h5] at hd
            rcases List.mem_singleton.mp hd with rfl
            exact h

/-- A JSON string literal over a string without tag openers has none. -/
theorem jsonQuote_noLt (s : String) (h : NoLtS s) : NoLtS (jsonQuote s) := by
  unfold jsonQuote
  refine noLt_append (noLt_append (litNoLt "\"" (by decide)) ?_) (litNoLt "\"" (by decide))
  intro d hd
  rcases List.mem_flatMap.mp hd with ⟨c, hc, hdc⟩
  exact jsonEscapeChar_noLt c (h c hc) d hdc

/-- A join of strings without tag openers, with such a separator, has
none. -/
theorem strJoin_noLt (sep : String) (hsep : NoLtS sep) :
    ∀ items : List String, (∀ x ∈ items, NoLtS x) → NoLtS (strJoin sep items) := by
  intro items
  induction items with
  | nil => intro _; exact litNoLt "" (by decide)
  | cons x xs ih =>
    intro h
    cases xs with
    | nil => exact h x (List.mem_singleton.mpr rfl)
    | cons y t =>
      show NoLtS (x ++ sep ++ strJoin sep (y :: t))
      refine noLt_append (noLt_append (h x (List.mem_cons_self _ _)) hsep) ?_
      exact ih (fun z hz => h z (List.mem_cons_of_mem _ hz))

/-- Indentation spaces carry no tag opener. -/
theorem indentStr_noLt (n : Nat) : NoLtS (indentStr n) := by
  intro c hc
  rw [List.eq_of_mem_replicate hc]
  decide

/-- A JSON aggregate over items without tag openers has none (for the
bracket strings used here). -/
theorem jsonSeq_noLt (isz lvl : Nat) (opn cls : String) (items : List String)
    (ho : NoLtS opn) (hc : NoLtS cls) (hi : ∀ x ∈ items, NoLtS x) :
    NoLtS (jsonSeq isz lvl opn cls items) := by
  unfold jsonSeq
  refine noLt_ite (noLt_append ho hc) (noLt_ite ?_ ?_)
  · exact noLt_append
      (noLt_append ho (strJoin_noLt "," (litNoLt "," (by decide)) items hi)) hc
  · refine noLt_append
      (noLt_append
        (noLt_append (noLt_append (noLt_append ho (litNoLt "\n" (by decide))) ?_)
          (litNoLt "\n" (by decide)))
        (indentStr_noLt _)) hc
    refine strJoin_noLt ",\n" (litNoLt ",\n" (by decide)) _ ?_
    intro x hx
    rcases List.mem_map.mp hx with ⟨y, hy, hxy⟩
    rw [← hxy]
    exact noLt_append (indentStr_noLt _) (hi y hy)

/-- A serialized member over tame parts has no tag opener. -/
theorem jsonMember_noLt (isz : Nat) (k v : String) (hk : NoLtS k)
    (hv : NoLtS v) : NoLtS (jsonMember isz k v) := by
  unfold jsonMember
  exact noLt_append
    (noLt_append (jsonQuote_noLt k hk)
      (noLt_ite (litNoLt ":" (by decide)) (litNoLt ": " (by decide)))) hv

/-- A serialized boolean has no tag opener. -/
theorem jsonBool_noLt (b : Bool) : NoLtS (jsonBool b) := by
  unfold jsonBool
  exact noLt_ite (litNoLt "true" (by decide)) (litNoLt "false" (by decide))

/-- Splitting a Bool all-test into the tameness proposition. -/
theorem all_tame_noLt {s : String}
    (h : s.data.all (fun c => !(c = '<' || c = '"')) = true) : NoLtS s :=
  tame_noLt (all_tame_tameStr h)

mutual
/-- JSON.stringify of a tame cell contains no tag opener, at any indent
size and level. -/
theorem jsonStringify_noLt :
    ∀ (isz lvl : Nat) (c : Cell), cellTame c = true →
      NoLtS (jsonStringify isz lvl c)
  | _, _, .null, _ => litNoLt "null" (by decide)
  | _, _, .bool b, _ => jsonBool_noLt b
  | _, _, .num q, _ => tame_noLt (jsNumToString_tame q)
  | _, _, .nan, _ => litNoLt "null" (by decide)
  | _, _, .str s, h => jsonQuote_noLt s (all_tame_noLt h)
  | _, _, .date none, _ => litNoLt "null" (by decide)
  | _, _, .date (some t), _ =>
    noLt_append (noLt_append (litNoLt "\"" (by decide)) (isoString_noLt t))
      (litNoLt "\"" (by decide))
  | isz, lvl, .arr l, h =>
    jsonSeq_noLt isz lvl "[" "]" _ (litNoLt "[" (by decide))
      (litNoLt "]" (by decide)) (jsonElems_noLt isz (lvl + 1) l h)
  | isz, lvl, .url v p, h => by
    refine jsonSeq_noLt isz lvl "\x7b" "\x7d" _ (litNoLt "\x7b" (by decide))
      (litNoLt "\x7d" (by decide)) ?_
    have hv : NoLtS v := all_tame_noLt (Bool.and_eq_true_iff.mp h).1
    intro x hx
    rcases List.mem_append.mp hx with h1 | h1
    · rcases List.mem_cons.mp h1 with rfl | h2
      · exact jsonMember_noLt _ _ _ (litNoLt "type" (by decide))
          (jsonQuote_noLt _ (litNoLt "url" (by decide)))
      · rcases List.mem_singleton.mp h2 with rfl
        exact jsonMember_noLt _ _ _ (litNoLt "value" (by decide))
          (jsonQuote_noLt _ hv)
    · match p, h1 with
      | some s, h1 => ?_
      rcases List.mem_singleton.mp h1 with rfl
      have hs : NoLtS s := all_tame_noLt (Bool.and_eq_true_iff.mp h).2
      exact jsonMember_noLt _ _ _ (litNoLt "placeholder" (by decide))
        (jsonQuote_noLt _ hs)
  | isz, lvl, .button f p cb cbv cbl, h => by
    have h1 := Bool.and_eq_true_iff.mp h
    have h2 := Bool.and_eq_true_iff.mp h1.1
    have hf : NoLtS f := all_tame_noLt h2.1
    refine jsonSeq_noLt isz lvl "\x7b" "\x7d" _ (litNoLt "\x7b" (by decide))
      (litNoLt "\x7d" (by decide)) ?_
    intro x hx
    rcases List.mem_append.mp hx with hx1 | hx1
    · rcases List.mem_append.mp hx1 with hx2 | hx2
      · rcases List.mem_append.mp hx2 with hx3 | hx3
        · rcases List.mem_cons.mp hx3 with rfl | hx4
          · exact jsonMember_noLt _ _ _ (litNoLt "type" (by decide))
              (jsonQuote_noLt _ (litNoLt "button" (by decide)))
          · rcases List.mem_singleton.mp hx4 with rfl
            exact jsonMember_noLt _ _ _ (litNoLt "function" (by decide))
              (jsonQuote_noLt _ hf)
        · match p, h2, hx3 with
          | some s, h2, hx3 => ?_
          rcases List.mem_singleton.mp hx3 with rfl
          have hs : NoLtS s := all_tame_noLt h2.2
          exact jsonMember_noLt _ _ _ (litNoLt "placeholder" (by decide))
            (jsonQuote_noLt _ hs)
      · rcases List.mem_cons.mp hx2 with rfl | hx3
        · exact jsonMember_noLt _ _ _ (litNoLt "checkbox" (by decide)) (jsonBool_noLt _)
        · rcases List.mem_singleton.mp hx3 with rfl
          exact jsonMember_noLt _ _ _ (litNoLt "checkboxValue" (by decide)) (jsonBool_noLt _)
    · match cbl, h1, hx1 with
      | some s, h1, hx1 => ?_
      rcases List.mem_singleton.mp hx1 with rfl
      have hs : NoLtS s := all_tame_noLt h1.2
      exact jsonMember_noLt _ _ _ (litNoLt "checkboxLabel" (by decide))
        (jsonQuote_noLt _ hs)
  | isz, lvl, .obj f, h =>
    jsonSeq_noLt isz lvl "\x7b" "\x7d" _ (litNoLt "\x7b" (by decide))
      (litNoLt "\x7d" (by decide)) (jsonFields_noLt isz (lvl + 1) f h)

/-- The serialized elements of a tame list contain no tag opener. -/
theorem jsonElems_noLt :
    ∀ (isz lvl : Nat) (l : List Cell), listTame l = true →
      ∀ x ∈ jsonElems isz lvl l, NoLtS x
  | _, _, [], _ => by intro x hx; cases hx
  | isz, lvl, c :: t, h => by
    intro x hx
    have hh := Bool.and_eq_true_iff.mp h
    rcases List.mem_cons.mp hx with rfl | h1
    · exact jsonStringify_noLt isz lvl c hh.1
    · exact jsonElems_noLt isz lvl t hh.2 x h1

/-- The serialized members of a tame field list contain no tag opener. -/
theorem jsonFields_noLt :
    ∀ (isz lvl : Nat) (f : List (String × Cell)), fieldsTame f = true →
      ∀ x ∈ jsonFields isz lvl f, NoLtS x
  | _, _, [], _ => by intro x hx; cases hx
  | isz, lvl, (k, v) :: t, h => by
    intro x hx
    have hh := Bool.and_eq_true_iff.mp h
    have hh2 := Bool.and_eq_true_iff.mp hh.1
    rcases List.mem_cons.mp hx with rfl | h1
    · exact jsonMember_noLt _ _ _ (all_tame_noLt hh2.1)
        (jsonStringify_noLt isz lvl v hh2.2)
    · exact jsonFields_noLt isz lvl t hh.2 x h1
end

/- ## Text-content extraction lemmas -/

/-- Outside a tag, characters other than the tag opener are emitted
verbatim. -/
theorem stripTags_emit :
    ∀ (l rest : List Char), (∀ c ∈ l, c ≠ '<') →
      stripTagsGo (l ++ rest) false none = l ++ stripTagsGo rest false none := by
  intro l
  induction l with
  | nil => intro rest _; rfl
  | cons c t ih =>
    intro rest h
    rw [List.cons_append]
    show (if c = '<' then stripTagsGo (t ++ rest) true none
      else c :: stripTagsGo (t ++ rest) false none) = _
    rw [if_neg (h c (List.mem_cons_self c t)), List.cons_append,
      ih rest (fun d hd => h d (List.mem_cons_of_mem _ hd))]

/-- Inside a double-quoted attribute value, characters other than the
double quote are skipped. -/
theorem stripTags_skipAttr :
    ∀ (l rest : List Char), (∀ c ∈ l, c ≠ '"') →
      stripTagsGo (l ++ rest) true (some '"') =
        stripTagsGo rest true (some '"') := by
  intro l
  induction l with
  | nil => intro rest _; rfl
  | cons c t ih =>
    intro rest h
    rw [List.cons_append]
    show (if c = '"' then stripTagsGo (t ++ rest) true none
      else stripTagsGo (t ++ rest) true (some '"')) = _
    rw [if_neg (h c (List.mem_cons_self c t)),
      ih rest (fun d hd => h d (List.mem_cons_of_mem _ hd))]

/-- Text content of a fragment shaped as one opening tag, text and a
closing suffix of pure markup. -/
theorem strip_tag_text (A x C : String)
    (hA : ∀ X : List Char,
      stripTagsGo (A.data ++ X) false none = stripTagsGo X false none)
    (hx : NoLtS x) (hC : stripTagsGo C.data false none = []) :
    stripTags (A ++ x ++ C) = x := by
  unfold stripTags
  rw [show (A ++ x ++ C).data = A.data ++ (x.data ++ C.data) by
    rw [String.data_append, String.data_append, List.append_assoc]]
  rw [hA, stripTags_emit x.data C.data hx, hC, List.append_nil]

/-- Text content of a fragment whose opening tag carries one interpolated
quoted attribute value before the element text. -/
theorem strip_attr_text (A s B x C : String)
    (hA : ∀ X : List Char,
      stripTagsGo (A.data ++ X) false none = stripTagsGo X true (some '"'))
    (hs : ∀ c ∈ s.data, c ≠ '"')
    (hB : ∀ X : List Char,
      stripTagsGo (B.data ++ X) true (some '"') = stripTagsGo X false none)
    (hx : NoLtS x) (hC : stripTagsGo C.data false none = []) :
    stripTags (A ++ s ++ B ++ x ++ C) = x := by
  unfold stripTags
  rw [show (A ++ s ++ B ++ x ++ C).data =
      A.data ++ (s.data ++ (B.data ++ (x.data ++ C.data))) by
    simp only [String.data_append, List.append_assoc]]
  rw [hA, stripTags_skipAttr s.data _ hs, hB,
    stripTags_emit x.data C.data hx, hC, List.append_nil]

/-- jsOrStr of tame parts has no tag opener. -/
theorem jsOrStr_noLt (ph : Option String) (d : String) (hph : TameOpt ph)
    (hd : NoLtS d) : NoLtS (jsOrStr ph d) := by
  cases ph with
  | none => exact hd
  | some v => exact noLt_ite hd (tame_noLt hph)

/-- jsOrStr of tame parts has no double quote. -/
theorem jsOrStr_noQuote (ph : Option String) (d : String) (hph : TameOpt ph)
    (hd : ∀ c ∈ d.data, c ≠ '"') : ∀ c ∈ (jsOrStr ph d).data, c ≠ '"' := by
  cases ph with
  | none => exact hd
  | some v =>
    intro c hc
    have hc2 : c ∈ (if v = "" then d else v).data := hc
    by_cases hv : v = ""
    · rw [if_pos hv] at hc2
      exact hd c hc2
    · rw [if_neg hv] at hc2
      exact (hph c hc2).2

/- ## The rendered text of each cell shape -/

/-- A null cell renders with text content the dash placeholder. -/
theorem renderedText_null (r ci : Nat) : renderedText Cell.null r ci = "-" := rfl

/-- A boolean cell renders with text content Yes or No. -/
theorem renderedText_bool (b : Bool) (r ci : Nat) :
    renderedText (Cell.bool b) r ci = (if b then "Yes" else "No") := by
  cases b <;> rfl

/-- A NaN number cell renders with text content NaN. -/
theorem renderedText_nan (r ci : Nat) : renderedText Cell.nan r ci = "NaN" := rfl

/-- A finite number cell renders with text content its decimal form. -/
theorem renderedText_num (q : ℚ) (r ci : Nat) :
    renderedText (Cell.num q) r ci = jsNumToString q := by
  unfold renderedText
  have hr : renderCell (Cell.num q) r ci =
      "<span class=\"table-library-number\">" ++ jsNumToString q ++ "</span>" := rfl
  rw [hr]
  exact strip_tag_text _ _ _ (fun X => rfl) (tame_noLt (jsNumToString_tame q)) rfl

/-- A text cell with a tame string renders with text content the string
itself. -/
theorem renderedText_str (s : String) (r ci : Nat) (h : TameStr s) :
    renderedText (Cell.str s) r ci = s := by
  unfold renderedText
  have hr : renderCell (Cell.str s) r ci =
      "<span class=\"table-library-text\" title=\"" ++ s ++ "\">" ++ s ++ "</span>" := rfl
  rw [hr]
  exact strip_attr_text _ _ _ _ _ (fun X => rfl) (fun c hc => (h c hc).2)
    (fun X => rfl) (tame_noLt h) rfl

/-- A link cell with tame target and placeholder renders with text content
its display label (placeholder or Open). -/
theorem renderedText_url (v : String) (ph : Option String) (r ci : Nat)
    (hv : TameStr v) (hph : TameOpt ph) :
    renderedText (Cell.url v ph) r ci = jsOrStr ph "Open" := by
  unfold renderedText
  have hr : renderCell (Cell.url v ph) r ci =
      "<a href=\"" ++ v ++ "\" target=\"_blank\" class=\"table-library-url\">"
        ++ jsOrStr ph "Open" ++ "</a>" := rfl
  rw [hr]
  exact strip_attr_text _ _ _ _ _ (fun X => rfl) (fun c hc => (hv c hc).2)
    (fun X => rfl)
    (jsOrStr_noLt ph "Open" hph (litNoLt "Open" (by decide))) rfl

/-- Text content of the generic-object pre fragment. -/
theorem strip_pre (J : String) (hJ : NoLtS J) :
    stripTags ("<pre class=\"table-library-object\">" ++ J ++ "</pre>") = J :=
  strip_tag_text _ _ _ (fun _ => rfl) hJ rfl

/-- An array cell takes the generic-object branch of renderCell (arrays
are typeof object) and renders as its two-space-indented JSON
serialization. -/
theorem renderedText_arr (l : List Cell) (r ci : Nat)
    (h : cellTame (Cell.arr l) = true) :
    renderedText (Cell.arr l) r ci = jsonStringify 2 0 (Cell.arr l) := by
  unfold renderedText
  have hr : renderCell (Cell.arr l) r ci =
      "<pre class=\"table-library-object\">" ++ jsonStringify 2 0 (Cell.arr l)
        ++ "</pre>" := rfl
  rw [hr]
  exact strip_pre _ (jsonStringify_noLt 2 0 _ h)

/-- A generic object cell renders as its two-space-indented JSON
serialization. -/
theorem renderedText_obj (f : List (String × Cell)) (r ci : Nat)
    (h : cellTame (Cell.obj f) = true) :
    renderedText (Cell.obj f) r ci = jsonStringify 2 0 (Cell.obj f) := by
  unfold renderedText
  have hr : renderCell (Cell.obj f) r ci =
      "<pre class=\"table-library-object\">" ++ jsonStringify 2 0 (Cell.obj f)
        ++ "</pre>" := rfl
  rw [hr]
  exact strip_pre _ (jsonStringify_noLt 2 0 _ h)

/-- A valid-instant date cell takes the generic-object branch of
renderCell (Date objects are typeof object) and renders as its quoted ISO
JSON serialization, not as the locale-formatted date. -/
theorem renderedText_date_valid (t : Int) (r ci : Nat) :
    renderedText (Cell.date (some t)) r ci = "\"" ++ isoString t ++ "\"" := by
  unfold renderedText
  have hr : renderCell (Cell.date (some t)) r ci =
      "<pre class=\"table-library-object\">" ++ ("\"" ++ isoString t ++ "\"")
        ++ "</pre>" := rfl
  rw [hr]
  exact strip_pre _
    (noLt_append (noLt_append (litNoLt "\"" (by decide)) (isoString_noLt t))
      (litNoLt "\"" (by decide)))

/-- An invalid-instant date cell takes the generic-object branch and
renders as the text null (its JSON serialization). -/
theorem renderedText_date_invalid (r ci : Nat) :
    renderedText (Cell.date none) r ci = "null" := rfl

/- ## Compositional splitting of the text-content extraction -/

/-- One step of the tag-parsing state of stripTagsGo. -/
def tagStep : Bool × Option Char → Char → Bool × Option Char
  | (false, _), c => if c = '<' then (true, none) else (false, none)
  | (true, none), c =>
    if c = '>' then (false, none)
    else if c = '"' ∨ c = '\'' then (true, some c)
    else (true, none)
  | (true, some q), c => if c = q then (true, none) else (true, some q)

/-- The tag-parsing state after consuming a character list. -/
def tagStates (l : List Char) (st : Bool × Option Char) : Bool × Option Char :=
  l.foldl tagStep st

/-- stripTagsGo splits over concatenation: the text of the prefix followed
by the text of the suffix from the state the prefix leaves. -/
theorem stripTagsGo_append :
    ∀ (l rest : List Char) (b : Bool) (q : Option Char),
      stripTagsGo (l ++ rest) b q =
        stripTagsGo l b q ++
          stripTagsGo rest (tagStates l (b, q)).1 (tagStates l (b, q)).2 := by
  intro l
  induction l with
  | nil => intro rest b q; rfl
  | cons c t ih =>
    intro rest b q
    rw [List.cons_append]
    match b, q with
    | false, q =>
      show (if c = '<' then stripTagsGo (t ++ rest) true none
          else c :: stripTagsGo (t ++ rest) false none) = _
      by_cases hc : c = '<'
      · rw [if_pos hc, ih rest true none]
        have hst : tagStates (c :: t) (false, q) = tagStates t (true, none) := by
          show tagStates t (tagStep (false, q) c) = _
          rw [show tagStep (false, q) c = (true, none) by
            show (if c = '<' then (true, none) else (false, none)) = _
            rw [if_pos hc]]
        rw [hst]
        show _ = (if c = '<' then stripTagsGo t true none
          else c :: stripTagsGo t false none) ++ _
        rw [if_pos hc]
      · rw [if_neg hc, ih rest false none]
        have hst : tagStates (c :: t) (false, q) = tagStates t (false, none) := by
          show tagStates t (tagStep (false, q) c) = _
          rw [show tagStep (false, q) c = (false, none) by
            show (if c = '<' then (true, none) else (false, none)) = _
            rw [if_neg hc]]
        rw [hst]
        show _ = (if c = '<' then stripTagsGo t true none
          else c :: stripTagsGo t false none) ++ _
        rw [if_neg hc, List.cons_append]
    | true, none =>
      show (if c = '>' then stripTagsGo (t ++ rest) false none
          else if c = '"' ∨ c = '\'' then stripTagsGo (t ++ rest) true (some c)
          else stripTagsGo (t ++ rest) true none) = _
      have hout : stripTagsGo (c :: t) true none =
          (if c = '>' then stripTagsGo t false none
            else if c = '"' ∨ c = '\'' then stripTagsGo t true (some c)
            else stripTagsGo t true none) := rfl
      have hstep : tagStep (true, none) c =
          (if c = '>' then (false, none)
            else if c = '"' ∨ c = '\'' then (true, some c)
            else (true, none)) := rfl
      by_cases h1 : c = '>'
      · rw [if_pos h1, ih rest false none, hout, if_pos h1]
        have hst : tagStates (c :: t) (true, none) = tagStates t (false, none) := by
          show tagStates t (tagStep (true, none) c) = _
          rw [hstep, if_pos h1]
        rw [hst]
      · by_cases h2 : c = '"' ∨ c = '\''
        · rw [if_neg h1, if_pos h2, ih rest true (some c), hout, if_neg h1, if_pos h2]
          have hst : tagStates (c :: t) (true, none) = tagStates t (true, some c) := by
            show tagStates t (tagStep (true, none) c) = _
            rw [hstep, if_neg h1, if_pos h2]
          rw [hst]
        · rw [if_neg h1, if_neg h2, ih rest true none, hout, if_neg h1, if_neg h2]
          have hst : tagStates (c :: t) (true, none) = tagStates t (true, none) := by
            show tagStates t (tagStep (true, none) c) = _
            rw [hstep, if_neg h1, if_neg h2]
          rw [hst]
    | true, some u =>
      show (if c = u then stripTagsGo (t ++ rest) true none
          else stripTagsGo (t ++ rest) true (some u)) = _
      have hout : stripTagsGo (c :: t) true (some u) =
          (if c = u then stripTagsGo t true none
            else stripTagsGo t true (some u)) := rfl
      have hstep : tagStep (true, some u) c =
          (if c = u then (true, none) else (true, some u)) := rfl
      by_cases h1 : c = u
      · rw [if_pos h1, ih rest true none, hout, if_pos h1]
        have hst : tagStates (c :: t) (true, some u) = tagStates t (true, none) := by
          show tagStates t (tagStep (true, some u) c) = _
          rw [hstep, if_pos h1]
        rw [hst]
      · rw [if_neg h1, ih rest true (some u), hout, if_neg h1]
        have hst : tagStates (c :: t) (true, some u) = tagStates t (true, some u) := by
          show tagStates t (tagStep (true, some u) c) = _
          rw [hstep, if_neg h1]
        rw [hst]

/-- A quoted attribute value without a double quote contributes no text. -/
theorem skipAttr_strip :
    ∀ l : List Char, (∀ c ∈ l, c ≠ '"') → stripTagsGo l true (some '"') = [] := by
  intro l
  induction l with
  | nil => intro _; rfl
  | cons c t ih =>
    intro h
    show (if c = '"' then stripTagsGo t true none
      else stripTagsGo t true (some '"')) = []
    rw [if_neg (h c (List.mem_cons_self c t))]
    exact ih (fun d hd => h d (List.mem_cons_of_mem _ hd))

/-- A quoted attribute value without a double quote leaves the state
unchanged. -/
theorem skipAttr_state :
    ∀ l : List Char, (∀ c ∈ l, c ≠ '"') →
      tagStates l (true, some '"') = (true, some '"') := by
  intro l
  induction l with
  | nil => intro _; rfl
  | cons c t ih =>
    intro h
    show tagStates t (tagStep (true, some '"') c) = _
    rw [show tagStep (true, some '"') c = (true, some '"') by
      show (if c = '"' then (true, none) else (true, some '"')) = _
      rw [if_neg (h c (List.mem_cons_self c t))]]
    exact ih (fun d hd => h d (List.mem_cons_of_mem _ hd))

/-- Text without a tag opener passes through unchanged. -/
theorem emit_strip :
    ∀ l : List Char, (∀ c ∈ l, c ≠ '<') → stripTagsGo l false none = l := by
  intro l
  induction l with
  | nil => intro _; rfl
  | cons c t ih =>
    intro h
    show (if c = '<' then stripTagsGo t true none
      else c :: stripTagsGo t false none) = c :: t
    rw [if_neg (h c (List.mem_cons_self c t)),
      ih (fun d hd => h d (List.mem_cons_of_mem _ hd))]

/-- Text without a tag opener leaves the state unchanged. -/
theorem emit_state :
    ∀ l : List Char, (∀ c ∈ l, c ≠ '<') →
      tagStates l (false, none) = (false, none) := by
  intro l
  induction l with
  | nil => intro _; rfl
  | cons c t ih =>
    intro h
    show tagStates t (tagStep (false, none) c) = _
    rw [show tagStep (false, none) c = (false, none) by
      show (if c = '<' then (true, none) else (false, none)) = _
      rw [if_neg (h c (List.mem_cons_self c t))]]
    exact ih (fun d hd => h d (List.mem_cons_of_mem _ hd))

/-- The characters of a string that are not layout whitespace. -/
def visibleChars (s : String) : List Char :=
  s.data.filter (fun c => !c.isWhitespace)

/-- stripTagsGo splits over concatenation, with the state the prefix
leaves given explicitly. -/
theorem stripTagsGo_append_state (l rest : List Char) (b : Bool) (q : Option Char)
    (b' : Bool) (q' : Option Char) (hst : tagStates l (b, q) = (b', q')) :
    stripTagsGo (l ++ rest) b q =
      stripTagsGo l b q ++ stripTagsGo rest b' q' := by
  rw [stripTagsGo_append, hst]

set_option maxHeartbeats 800000 in
/-- An action cell renders with text content that deviates from the
placeholder only by layout whitespace, plus the checkbox label when a
checkbox is configured: its visible (non-whitespace) characters are
exactly those of the placeholder (or Action) followed by those of the
checkbox label (or Mark) when present. -/
theorem renderedText_button (fn : String) (ph : Option String) (cb cbv : Bool)
    (cbl : Option String) (r ci : Nat) (hfn : TameStr fn) (hph : TameOpt ph)
    (hcbl : TameOpt cbl) :
    visibleChars (renderedText (Cell.button fn ph cb cbv cbl) r ci) =
      visibleChars (jsOrStr ph "Action" ++ (if cb then jsOrStr cbl "Mark" else "")) := by
  have hfnq : ∀ c ∈ fn.data, c ≠ '"' := fun c hc => (hfn c hc).2
  have hnrq : ∀ c ∈ (natRepr r).data, c ≠ '"' :=
    fun c hc => (natRepr_tame r c hc).2
  have hA : NoLtS (jsOrStr ph "Action") :=
    jsOrStr_noLt ph "Action" hph (litNoLt "Action" (by decide))
  cases cb with
  | false =>
    show visibleChars (stripTags (renderCell (Cell.button fn ph false cbv cbl) r ci)) =
      visibleChars (jsOrStr ph "Action" ++ "")
    have hd : (renderCell (Cell.button fn ph false cbv cbl) r ci).data =
        "\n            <div class=\"table-library-action-cell ".data ++
        ("\">\n              <button class=\"table-library-action-btn\" \n                      data-fn=\"".data ++
        (fn.data ++
        ("\" \n                      data-row-index=\"".data ++
        ((natRepr r).data ++
        ("\">\n                ".data ++
        ((jsOrStr ph "Action").data ++
        ("\n              </button>\n              ".data ++
        "\n            </div>\n          ".data))))))) := by
      show (("\n            <div class=\"table-library-action-cell " ++ "" ++
          "\">\n              <button class=\"table-library-action-btn\" \n                      data-fn=\"" ++
          fn ++ "\" \n                      data-row-index=\"" ++ natRepr r ++
          "\">\n                " ++ jsOrStr ph "Action" ++
          "\n              </button>\n              " ++ "" ++
          "\n            </div>\n          ") : String).data = _
      simp only [String.data_append, show ("" : String).data = [] from rfl,
        List.append_nil, List.nil_append, List.append_assoc]
    show (stripTagsGo (renderCell (Cell.button fn ph false cbv cbl) r ci).data
        false none).filter (fun c => !c.isWhitespace) = _
    rw [hd]
    rw [stripTagsGo_append_state
      "\n            <div class=\"table-library-action-cell ".data _
      false none true (some '"') rfl]
    rw [stripTagsGo_append_state
      "\">\n              <button class=\"table-library-action-btn\" \n                      data-fn=\"".data _
      true (some '"') true (some '"') rfl]
    rw [stripTags_skipAttr fn.data _ hfnq]
    rw [stripTagsGo_append_state
      "\" \n                      data-row-index=\"".data _
      true (some '"') true (some '"') rfl]
    rw [stripTags_skipAttr (natRepr r).data _ hnrq]
    rw [stripTagsGo_append_state "\">\n                ".data _
      true (some '"') false none rfl]
    rw [stripTags_emit (jsOrStr ph "Action").data _ hA]
    rw [stripTagsGo_append_state "\n              </button>\n              ".data _
      false none false none rfl]
    simp only [List.filter_append, List.nil_append]
    rw [show (stripTagsGo "\n            <div class=\"table-library-action-cell ".data
        false none).filter (fun c => !c.isWhitespace) = [] from rfl]
    rw [show (stripTagsGo "\">\n              <button class=\"table-library-action-btn\" \n                      data-fn=\"".data
        true (some '"')).filter (fun c => !c.isWhitespace) = [] from rfl]
    rw [show (stripTagsGo "\" \n                      data-row-index=\"".data
        true (some '"')).filter (fun c => !c.isWhitespace) = [] from rfl]
    rw [show (stripTagsGo "\">\n                ".data
        true (some '"')).filter (fun c => !c.isWhitespace) = [] from rfl]
    rw [show (stripTagsGo "\n              </button>\n              ".data
        false none).filter (fun c => !c.isWhitespace) = [] from rfl]
    rw [show (stripTagsGo "\n            </div>\n          ".data
        false none).filter (fun c => !c.isWhitespace) = [] from rfl]
    show _ = ((jsOrStr ph "Action" ++ "").data).filter (fun c => !c.isWhitespace)
    rw [String.data_append, show ("" : String).data = [] from rfl]
    simp only [List.nil_append, List.append_nil]
  | true =>
    have hB : NoLtS (jsOrStr cbl "Mark") :=
      jsOrStr_noLt cbl "Mark" hcbl (litNoLt "Mark" (by decide))
    show visibleChars (stripTags (renderCell (Cell.button fn ph true cbv cbl) r ci)) =
      visibleChars (jsOrStr ph "Action" ++ jsOrStr cbl "Mark")
    have hd : (renderCell (Cell.button fn ph true cbv cbl) r ci).data =
        "\n            <div class=\"table-library-action-cell ".data ++
        ("has-checkbox".data ++
        ("\">\n              <button class=\"table-library-action-btn\" \n                      data-fn=\"".data ++
        (fn.data ++
        ("\" \n                      data-row-index=\"".data ++
        ((natRepr r).data ++
        ("\">\n                ".data ++
        ((jsOrStr ph "Action").data ++
        ("\n              </button>\n              ".data ++
        ("\n                <label class=\"table-library-checkbox-label\">\n                  <input type=\"checkbox\" ".data ++
        ((if cbv then ("checked" : String) else "").data ++
        ("\n                    class=\"table-library-action-checkbox\" \n                    data-row-index=\"".data ++
        ((natRepr r).data ++
        ("\"\n                    data-fn=\"".data ++
        (fn.data ++
        ("\" />\n                  <span>".data ++
        ((jsOrStr cbl "Mark").data ++
        ("</span>\n                </label>\n              ".data ++
        "\n            </div>\n          ".data))))))))))))))))) := by
      show (("\n            <div class=\"table-library-action-cell " ++ "has-checkbox" ++
          "\">\n              <button class=\"table-library-action-btn\" \n                      data-fn=\"" ++
          fn ++ "\" \n                      data-row-index=\"" ++ natRepr r ++
          "\">\n                " ++ jsOrStr ph "Action" ++
          "\n              </button>\n              " ++
          ("\n                <label class=\"table-library-checkbox-label\">\n                  <input type=\"checkbox\" " ++
            (if cbv then ("checked" : String) else "") ++
            "\n                    class=\"table-library-action-checkbox\" \n                    data-row-index=\"" ++
            natRepr r ++ "\"\n                    data-fn=\"" ++ fn ++
            "\" />\n                  <span>" ++ jsOrStr cbl "Mark" ++
            "</span>\n                </label>\n              ") ++
          "\n            </div>\n          ") : String).data = _
      simp only [String.data_append, List.append_assoc]
    show (stripTagsGo (renderCell (Cell.button fn ph true cbv cbl) r ci).data
        false none).filter (fun c => !c.isWhitespace) = _
    rw [hd]
    rw [stripTagsGo_append_state
      "\n            <div class=\"table-library-action-cell ".data _
      false none true (some '"') rfl]
    rw [stripTagsGo_append_state "has-checkbox".data _
      true (some '"') true (some '"') rfl]
    rw [stripTagsGo_append_state
      "\">\n              <button class=\"table-library-action-btn\" \n                      data-fn=\"".data _
      true (some '"') true (some '"') rfl]
    rw [stripTags_skipAttr fn.data _ hfnq]
    rw [stripTagsGo_append_state
      "\" \n                      data-row-index=\"".data _
      true (some '"') true (some '"') rfl]
    rw [stripTags_skipAttr (natRepr r).data _ hnrq]
    rw [stripTagsGo_append_state "\">\n                ".data _
      true (some '"') false none rfl]
    rw [stripTags_emit (jsOrStr ph "Action").data _ hA]
    rw [stripTagsGo_append_state "\n              </button>\n              ".data _
      false none false none rfl]
    rw [stripTagsGo_append_state
      "\n                <label class=\"table-library-checkbox-label\">\n                  <input type=\"checkbox\" ".data _
      false none true none rfl]
    rw [stripTagsGo_append_state (if cbv then ("checked" : String) else "").data _
      true none true none (by cases cbv <;> rfl)]
    rw [stripTagsGo_append_state
      "\n                    class=\"table-library-action-checkbox\" \n                    data-row-index=\"".data _
      true none true (some '"') rfl]
    rw [stripTags_skipAttr (natRepr r).data _ hnrq]
    rw [stripTagsGo_append_state "\"\n                    data-fn=\"".data _
      true (some '"') true (some '"') rfl]
    rw [stripTags_skipAttr fn.data _ hfnq]
    rw [stripTagsGo_append_state "\" />\n                  <span>".data _
      true (some '"') false none rfl]
    rw [stripTags_emit (jsOrStr cbl "Mark").data _ hB]
    rw [stripTagsGo_append_state "</span>\n                </label>\n              ".data _
      false none false none rfl]
    simp only [List.filter_append, List.nil_append]
    rw [show (stripTagsGo "\n            <div class=\"table-library-action-cell ".data
        false none).filter (fun c => !c.isWhitespace) = [] from rfl]
    rw [show (stripTagsGo "has-checkbox".data
        true (some '"')).filter (fun c => !c.isWhitespace) = [] from rfl]
    rw [show (stripTagsGo "\">\n              <button class=\"table-library-action-btn\" \n                      data-fn=\"".data
        true (some '"')).filter (fun c => !c.isWhitespace) = [] from rfl]
    rw [show (stripTagsGo "\" \n                      data-row-index=\"".data
        true (some '"')).filter (fun c => !c.isWhitespace) = [] from rfl]
    rw [show (stripTagsGo "\">\n                ".data
        true (some '"')).filter (fun c => !c.isWhitespace) = [] from rfl]
    rw [show (stripTagsGo "\n              </button>\n              ".data
        false none).filter (fun c => !c.isWhitespace) = [] from rfl]
    rw [show (stripTagsGo "\n                <label class=\"table-library-checkbox-label\">\n                  <input type=\"checkbox\" ".data
        false none).filter (fun c => !c.isWhitespace) = [] from rfl]
    rw [show (stripTagsGo (if cbv then ("checked" : String) else "").data
        true none).filter (fun c => !c.isWhitespace) = [] by cases cbv <;> rfl]
    rw [show (stripTagsGo "\n                    class=\"table-library-action-checkbox\" \n                    data-row-index=\"".data
        true none).filter (fun c => !c.isWhitespace) = [] from rfl]
    rw [show (stripTagsGo "\"\n                    data-fn=\"".data
        true (some '"')).filter (fun c => !c.isWhitespace) = [] from rfl]
    rw [show (stripTagsGo "\" />\n                  <span>".data
        true (some '"')).filter (fun c => !c.isWhitespace) = [] from rfl]
    rw [show (stripTagsGo "</span>\n                </label>\n              ".data
        false none).filter (fun c => !c.isWhitespace) = [] from rfl]
    rw [show (stripTagsGo "\n            </div>\n          ".data
        false none).filter (fun c => !c.isWhitespace) = [] from rfl]
    show _ = ((jsOrStr ph "Action" ++ jsOrStr cbl "Mark").data).filter
      (fun c => !c.isWhitespace)
    rw [String.data_append, List.filter_append]
    simp only [List.append_nil, List.nil_append]

/- ## Claim C2 -/

/-- Counterexample for C2: for the list cell [1, 2], the export text is
the semicolon join 1; 2, but the rendered text is not the comma join
1, 2 that the claim allows as the only divergence: because arrays are
typeof object, renderCell takes the generic-object branch (the
Array.isArray branch below it is unreachable) and renders the two-space
JSON serialization of the array inside a pre element. -/
theorem render_export_divergence_counterexample :
    getCellTextContent (Cell.arr [Cell.num 1, Cell.num 2]) = "1; 2" ∧
      renderedText (Cell.arr [Cell.num 1, Cell.num 2]) 0 0 = "[\n  1,\n  2\n]" ∧
      renderedText (Cell.arr [Cell.num 1, Cell.num 2]) 0 0 ≠ "1, 2" := by
  refine ⟨by decide, by decide, by decide⟩

/-- C2 (amended): the rendered text content and the export text of a cell
coincide exactly for boolean, finite-number, NaN and plain-text cells and
for link cells (both yield the placeholder or Open); they diverge beyond a
list-separator difference everywhere else: a null cell renders as the dash
placeholder but exports as the empty string; array, date and generic
object cells all take the generic-object pre branch when rendered (arrays
and Date objects are typeof object), so an array renders as its two-space
JSON serialization while exporting as its elements joined with semicolon
separators, a valid date renders as its quoted JSON ISO serialization
while exporting as the locale-formatted form, an invalid date yields the
text null on both paths, and a generic object renders as two-space JSON
but exports as compact JSON; an action cell renders its placeholder (or
Action) padded by layout whitespace, plus the checkbox label (or Mark)
when a checkbox is configured, while exporting the bare placeholder.
Stated for cells whose embedded strings are plain text (no markup or
quote characters). -/
theorem render_export_text_relation :
    (∀ b : Bool, ∀ r ci : Nat,
        renderedText (Cell.bool b) r ci = getCellTextContent (Cell.bool b)) ∧
    (∀ q : ℚ, ∀ r ci : Nat,
        renderedText (Cell.num q) r ci = getCellTextContent (Cell.num q)) ∧
    (∀ r ci : Nat, renderedText Cell.nan r ci = getCellTextContent Cell.nan) ∧
    (∀ s : String, ∀ r ci : Nat, TameStr s →
        renderedText (Cell.str s) r ci = s ∧ getCellTextContent (Cell.str s) = s) ∧
    (∀ v : String, ∀ ph : Option String, ∀ r ci : Nat, TameStr v → TameOpt ph →
        renderedText (Cell.url v ph) r ci = jsOrStr ph "Open" ∧
          getCellTextContent (Cell.url v ph) = jsOrStr ph "Open") ∧
    (∀ r ci : Nat,
        renderedText Cell.null r ci = "-" ∧ getCellTextContent Cell.null = "") ∧
    (∀ l : List Cell, ∀ r ci : Nat, cellTame (Cell.arr l) = true →
        renderedText (Cell.arr l) r ci = jsonStringify 2 0 (Cell.arr l) ∧
          getCellTextContent (Cell.arr l) = jsJoin "; " l) ∧
    (∀ t : Int, ∀ r ci : Nat,
        renderedText (Cell.date (some t)) r ci = "\"" ++ isoString t ++ "\"" ∧
          getCellTextContent (Cell.date (some t)) = formatDateOrTimestamp (some t)) ∧
    (∀ r ci : Nat,
        renderedText (Cell.date none) r ci = "null" ∧
          getCellTextContent (Cell.date none) = "null") ∧
    (∀ f : List (String × Cell), ∀ r ci : Nat, cellTame (Cell.obj f) = true →
        renderedText (Cell.obj f) r ci = jsonStringify 2 0 (Cell.obj f) ∧
          getCellTextContent (Cell.obj f) = jsonStringify 0 0 (Cell.obj f)) ∧
    (∀ fn : String, ∀ ph : Option String, ∀ cb cbv : Bool,
        ∀ cbl : Option String, ∀ r ci : Nat,
        TameStr fn → TameOpt ph → TameOpt cbl →
        visibleChars (renderedText (Cell.button fn ph cb cbv cbl) r ci) =
            visibleChars
              (jsOrStr ph "Action" ++ (if cb then jsOrStr cbl "Mark" else "")) ∧
          getCellTextContent (Cell.button fn ph cb cbv cbl) = jsOrStr ph "Action") := by
  refine ⟨?_, ?_, ?_, ?_, ?_, ?_, ?_, ?_, ?_, ?_, ?_⟩
  · intro b r ci
    cases b <;> rfl
  · intro q r ci
    exact (renderedText_num q r ci).trans rfl
  · intro r ci
    exact renderedText_nan r ci
  · intro s r ci h
    exact ⟨renderedText_str s r ci h, rfl⟩
  · intro v ph r ci hv hph
    exact ⟨renderedText_url v ph r ci hv hph, rfl⟩
  · intro r ci
    exact ⟨renderedText_null r ci, rfl⟩
  · intro l r ci h
    exact ⟨renderedText_arr l r ci h, rfl⟩
  · intro t r ci
    exact ⟨renderedText_date_valid t r ci, rfl⟩
  · intro r ci
    exact ⟨renderedText_date_invalid r ci, rfl⟩
  · intro f r ci h
    exact ⟨renderedText_obj f r ci h, rfl⟩
  · intro fn ph cb cbv cbl r ci hfn hph hcbl
    exact ⟨renderedText_button fn ph cb cbv cbl r ci hfn hph hcbl, rfl⟩

/-- Witness for C2 amended: a concrete tame text cell renders and exports
as itself. -/
theorem render_export_text_relation_witness :
    renderedText (Cell.str "Al") 0 0 = "Al" ∧
      getCellTextContent (Cell.str "Al") = "Al" :=
  render_export_text_relation.2.2.2.1 "Al" 0 0 (all_tame_tameStr (by decide))

/- ## Claim C4 -/

/-- Counterexample for C4: an invalid-instant date cell exports as the
text null (its JSON serialization through Date.prototype.toJSON), not as
the empty string the claim requires. -/
theorem invalid_date_not_empty_counterexample :
    getCellTextContent (Cell.date none) = "null" ∧ ("null" : String) ≠ "" :=
  ⟨rfl, by decide⟩

/-- C4 (amended): an invalid-instant date cell does not error and does not
reach the date-formatting branch on either path; on both the rendering
and the export path the guards divert it into the generic JSON
serialization, which yields the text null (renderCell wraps it in a pre
element).  Only formatDateOrTimestamp itself maps an invalid date to the
empty string, and the guards keep invalid dates away from it. -/
theorem invalid_date_yields_null (r ci : Nat) :
    renderedText (Cell.date none) r ci = "null" ∧
      getCellTextContent (Cell.date none) = "null" ∧
      formatDateOrTimestamp none = "" :=
  ⟨renderedText_date_invalid r ci, rfl, rfl⟩
